import Mathlib

/-!
Shallow embedding of the data-quality analysis engine (`detectDataType`,
`findMissingValues`, `findDuplicates`, `calculateStatistics`, `detectOutliers`,
`analyzeDataQuality`) of the repository's data-analysis library, together with
proofs settling the specification claims about it.

Modelling conventions:
* A JavaScript number is idealised as an exact rational (`ℚ`) extended with
  `NaN` and signed infinities (type `JNum`); float64 rounding is not modelled.
  All arithmetic the engine performs on the analysed paths is exact in ℚ, and
  the special values arise only from division, exactly as in JS (`0/0 → NaN`,
  `x/0 → ±∞`), and propagate through `+ - * /`, `Math.max` and `>` with the
  JS rules.
* A cell value is `null`, `undefined` (absent key), a number, a string, or a
  boolean (type `Cell`), matching the dynamic values the engine receives.
* `Array.prototype.sort` is required by ECMAScript to be stable and to move
  `undefined` elements to the end; a stable sort's result is unique, so we
  embed it with `List.insertionSort` (which inserts earlier elements before
  later ties, i.e. is stable) applied to the non-`undefined` part.
* JS `String(number)` prints the shortest decimal that round-trips through
  float64; for the integer and finite-decimal values this file manipulates the
  rendering below agrees with it, and it is used only as an (injective on the
  inputs that occur) sort/serialisation key elsewhere.
-/

namespace DQ

/-!
Exact rational arithmetic, implemented on `ℚ` through `mkRat` so that every
operation reduces inside the kernel (the standard `Rat.add`/`mul`/`div` are
`@[irreducible]`).  Each operation is proved equal to the corresponding
standard `ℚ` operation in the theorem section, so the engine's arithmetic is
ordinary exact rational arithmetic.
-/

/-- Rational addition via `mkRat` (provably `a + b`). -/
def qadd (a b : ℚ) : ℚ := mkRat (a.num * b.den + b.num * a.den) (a.den * b.den)

/-- Rational negation via `mkRat` (provably `-a`). -/
def qneg (a : ℚ) : ℚ := mkRat (-a.num) a.den

/-- Rational subtraction (provably `a - b`). -/
def qsub (a b : ℚ) : ℚ := qadd a (qneg b)

/-- Rational multiplication via `mkRat` (provably `a * b`). -/
def qmul (a b : ℚ) : ℚ := mkRat (a.num * b.num) (a.den * b.den)

/-- The rational `n / d` for integers, via `mkRat` (provably `(n : ℚ) / d`,
including the `d = 0 ↦ 0` convention). -/
def qdivInt (n d : Int) : ℚ := if d < 0 then mkRat (-n) (-d).toNat else mkRat n d.toNat

/-- Rational division (provably `a / b`). -/
def qdiv (a b : ℚ) : ℚ := qdivInt (a.num * b.den) (a.den * b.num)

/-- The rational value of a natural number (provably `(n : ℚ)`). -/
def qofNat (n : Nat) : ℚ := mkRat n 1

/-- Floor of a rational as an integer (provably `⌊q⌋`). -/
def qfloorInt (q : ℚ) : Int := q.num / q.den

/-- Floor of a rational as a natural number (provably `⌊q⌋₊`). -/
def qfloorNat (q : ℚ) : Nat := (qfloorInt q).toNat

/-- Left-fold sum (provably `l.sum`); the JS accumulations run left to
right. -/
def qsum (l : List ℚ) : ℚ := l.foldl qadd 0

/-- A JavaScript number: `NaN`, `+∞`/`-∞`, or a finite value idealised as an
exact rational. -/
inductive JNum where
  | nan : JNum
  | inf : Bool → JNum
  | num : ℚ → JNum
deriving DecidableEq, Repr

namespace JNum

/-- JS addition on `JNum`: `NaN` propagates, infinities of equal sign absorb,
`∞ + (-∞) = NaN`. -/
def jadd : JNum → JNum → JNum
  | nan, _ => nan
  | _, nan => nan
  | inf p, inf q => if p = q then inf p else nan
  | inf p, num _ => inf p
  | num _, inf p => inf p
  | num a, num b => num (qadd a b)

/-- JS unary negation. -/
def jneg : JNum → JNum
  | nan => nan
  | inf p => inf (!p)
  | num a => num (qneg a)

/-- JS subtraction, `a - b = a + (-b)`. -/
def jsub (a b : JNum) : JNum := jadd a (jneg b)

/-- JS multiplication: `NaN` propagates, `±∞ × 0 = NaN`, signs multiply. -/
def jmul : JNum → JNum → JNum
  | nan, _ => nan
  | _, nan => nan
  | inf p, inf q => inf (p = q)
  | inf p, num a => if a = 0 then nan else inf (p = decide (0 < a))
  | num a, inf p => if a = 0 then nan else inf (p = decide (0 < a))
  | num a, num b => num (qmul a b)

/-- JS division: `0/0 = NaN`, `x/0 = ±∞` for `x ≠ 0` (the `+0` divisor case;
negative zero is not modelled), `x/±∞ = 0`, `±∞/±∞ = NaN`. -/
def jdiv : JNum → JNum → JNum
  | nan, _ => nan
  | _, nan => nan
  | inf _, inf _ => nan
  | inf p, num a => if a < 0 then inf (!p) else inf p
  | num _, inf _ => num 0
  | num a, num b =>
      if b = 0 then (if a = 0 then nan else if a < 0 then inf false else inf true)
      else num (qdiv a b)

/-- JS `Math.max(0, x)`: `NaN` propagates (`Math.max(0, NaN) = NaN`). -/
def jmax0 : JNum → JNum
  | nan => nan
  | inf p => if p then inf true else num 0
  | num a => num (if a < 0 then 0 else a)

/-- JS strict `>` comparison: any comparison involving `NaN` is false. -/
def jgt : JNum → JNum → Bool
  | nan, _ => false
  | _, nan => false
  | inf p, inf q => p && !q
  | inf p, num _ => p
  | num _, inf q => !q
  | num a, num b => decide (b < a)

end JNum

/-- A cell value of the dataset: `null`, `undefined` (a key absent from the
row object), a number, a string, or a boolean. -/
inductive Cell where
  | null : Cell
  | undef : Cell
  | num : ℚ → Cell
  | str : String → Cell
  | boolean : Bool → Cell
deriving DecidableEq, Repr

/-- JS whitespace test (idealised as Lean's `Char.isWhitespace`; the engine
only ever meets ASCII whitespace). -/
def isJsWs (c : Char) : Bool := c.isWhitespace

/-- Characters of a string with leading and trailing JS whitespace removed
(the semantics of `String.prototype.trim`). -/
def trimChars (l : List Char) : List Char :=
  ((l.dropWhile isJsWs).reverse.dropWhile isJsWs).reverse

/-- JS `String.prototype.trim` on our own character-list representation. -/
def trimStr (s : String) : String := String.mk (trimChars s.data)

/-- Decimal digits of a natural number, via `Nat.repr`. -/
def natStr (n : Nat) : String := toString n

/-- Decimal rendering of an integer. -/
def intStr (i : Int) : String := toString i

/-- Left-pad a digit string with zeros to the given length. -/
def padLeftZeros (k : Nat) (s : String) : String :=
  String.mk (List.replicate (k - s.length) '0' ++ s.data)

/-- Drop trailing zero characters. -/
def dropTrailingZeros (s : String) : String :=
  String.mk ((s.data.reverse.dropWhile (fun c => c = '0')).reverse)

/-- Decimal rendering of the non-negative rational `nAbs / den` in the style of
JS `Number.prototype.toString`: an exact finite decimal when the denominator
divides a power of ten (the shortest such), with trailing zeros stripped.  For
a denominator with other prime factors (which never occurs for the values this
development renders) a 20-digit truncation stands in for the float64
shortest-round-trip decimal. -/
def posRatDecStr (nAbs den : Nat) : String :=
  let k := (((List.range 41).find? (fun k => den ∣ 10 ^ k)).getD 20)
  let scaled := nAbs * 10 ^ k / den
  let ip := scaled / 10 ^ k
  let fp := scaled % 10 ^ k
  let fracDigits := dropTrailingZeros (padLeftZeros k (natStr fp))
  if fracDigits.data = [] then natStr ip else natStr ip ++ "." ++ fracDigits

/-- JS `String(q)` for a finite number `q`. -/
def ratToString (q : ℚ) : String :=
  if q.den = 1 then intStr q.num
  else (if q.num < 0 then "-" else "") ++ posRatDecStr q.num.natAbs q.den

/-- Core of JS `Number.prototype.toFixed(f)` for a non-negative rational:
round to the nearest multiple of `10^(-f)`, ties toward the larger value
(ECMA: "if there are two such n, pick the larger n"). -/
def posRatFixed (f : Nat) (q : ℚ) : String :=
  let n := (qfloorInt (qadd (qmul q (qofNat (10 ^ f))) (qdivInt 1 2))).toNat
  if f = 0 then natStr n
  else natStr (n / 10 ^ f) ++ "." ++ padLeftZeros f (natStr (n % 10 ^ f))

/-- JS `Number.prototype.toFixed(f)` on a finite rational. -/
def ratToFixed (f : Nat) (q : ℚ) : String :=
  if q < 0 then "-" ++ posRatFixed f (qneg q) else posRatFixed f q

/-- JS `Number.prototype.toFixed(f)` on a `JNum`. -/
def jnumToFixed (f : Nat) : JNum → String
  | JNum.nan => "NaN"
  | JNum.inf true => "Infinity"
  | JNum.inf false => "-Infinity"
  | JNum.num q => ratToFixed f q

/-- JS `String(value)` on a cell. -/
def cellToString : Cell → String
  | Cell.null => "null"
  | Cell.undef => "undefined"
  | Cell.num q => ratToString q
  | Cell.str s => s
  | Cell.boolean b => cond b "true" "false"

/-- JSON string escaping for the characters that can occur in our cells (the
quote, the backslash and the common control characters; other characters are
emitted verbatim). -/
def jsonEscape (s : String) : String :=
  String.mk (s.data.flatMap (fun c =>
    if c = '"' then ['\\', '"']
    else if c = '\\' then ['\\', '\\']
    else if c = '\n' then ['\\', 'n']
    else if c = '\t' then ['\\', 't']
    else if c = '\r' then ['\\', 'r']
    else [c]))

/-- JSON serialisation of a cell as an array element: `JSON.stringify` turns
both `null` and `undefined` into `null` inside arrays. -/
def cellToJson : Cell → String
  | Cell.null => "null"
  | Cell.undef => "null"
  | Cell.num q => ratToString q
  | Cell.str s => "\"" ++ jsonEscape s ++ "\""
  | Cell.boolean b => cond b "true" "false"

/-- Numeric value of a decimal digit character. -/
def digitVal (c : Char) : Nat := c.toNat - 48

/-- Read a maximal run of decimal digits, returning the accumulated value, the
number of digits read, and the remaining characters. -/
def readDigits : Nat → Nat → List Char → Nat × Nat × List Char
  | acc, cnt, [] => (acc, cnt, [])
  | acc, cnt, c :: cs =>
      if c.isDigit then readDigits (acc * 10 + digitVal c) (cnt + 1) cs
      else (acc, cnt, c :: cs)

/-- Read an optional sign, returning `-1` for a leading minus. -/
def readSign : List Char → Int × List Char
  | '-' :: cs => (-1, cs)
  | '+' :: cs => (1, cs)
  | cs => (1, cs)

/-- Parse a decimal float literal prefix `[+-]? digits [. digits]? ([eE][+-]?digits)?`
from the characters, returning its exact value and the remaining characters,
or `none` when no digit is present.  The exponent is consumed only when it is
itself well formed, as JS `parseFloat`'s longest-valid-prefix rule demands.
Hexadecimal and `Infinity` literals are idealised away (no claim depends on
them). -/
def parseDecCore (l : List Char) : Option (ℚ × List Char) :=
  let (sgn, l1) := readSign l
  let (ip, icnt, l2) := readDigits 0 0 l1
  let (fp, fcnt, l3) :=
    match l2 with
    | '.' :: cs => readDigits 0 0 cs
    | _ => (0, 0, l2)
  if icnt + fcnt = 0 then none
  else
    let mant : ℚ := qadd (qofNat ip) (qdivInt fp (10 ^ fcnt))
    let applyExp : ℚ → Int → ℚ := fun m e =>
      if e < 0 then qmul m (qdivInt 1 (10 ^ (-e).toNat)) else qmul m (qofNat (10 ^ e.toNat))
    let (q, rest) :=
      match l3 with
      | 'e' :: cs =>
          match readSign cs with
          | (es, cs2) =>
            match readDigits 0 0 cs2 with
            | (ev, ecnt, cs3) =>
              if ecnt = 0 then (mant, l3)
              else (applyExp mant (es * ev), cs3)
      | 'E' :: cs =>
          match readSign cs with
          | (es, cs2) =>
            match readDigits 0 0 cs2 with
            | (ev, ecnt, cs3) =>
              if ecnt = 0 then (mant, l3)
              else (applyExp mant (es * ev), cs3)
      | _ => (mant, l3)
    some (if sgn < 0 then qneg q else q, rest)

/-- JS `parseFloat` on a string: skip leading whitespace, parse the longest
valid decimal prefix, `NaN` when none exists. -/
def jsParseFloat (s : String) : JNum :=
  match parseDecCore (s.data.dropWhile isJsWs) with
  | some (q, _) => JNum.num q
  | none => JNum.nan

/-- JS `Number(s)` coercion of a string: trim, the empty string is `0`, and
otherwise the whole trimmed string must be a decimal literal. -/
def jsNumberOf (s : String) : JNum :=
  let t := trimChars s.data
  if t = [] then JNum.num 0
  else
    match parseDecCore t with
    | some (q, []) => JNum.num q
    | _ => JNum.nan

/-- The numeric coercion the engine applies per value:
`typeof v === 'number' ? v : parseFloat(v)` (where `parseFloat` stringifies
its argument first). -/
def toNumJS : Cell → JNum
  | Cell.num q => JNum.num q
  | c => jsParseFloat (cellToString c)

/-- Extract the finite value of a `JNum`, `none` on `NaN`/infinities; this is
the `filter(v => !isNaN(v))` step (our parsing model never produces an
infinity, so dropping them too is faithful). -/
def jnumToOpt : JNum → Option ℚ
  | JNum.num q => some q
  | _ => none

/-- A row record: an association list from column name to cell value.  A key
absent from the row reads as `undefined`. -/
abbrev Row := List (String × Cell)

/-- A dataset: ordered headers plus row records, the engine's input contract. -/
structure Dataset where
  headers : List String
  rows : List Row
deriving Repr

/-- JS property access `row[header]`: the first binding of the key, or
`undefined` when the key is absent. -/
def cellAt (r : Row) (h : String) : Cell := ((r.find? (fun p => p.1 = h)).map Prod.snd).getD Cell.undef

/-- Pair each element of a list with its index, starting at `n`; this models
the index argument JS `forEach`/`map` callbacks receive. -/
def enumFrom (n : Nat) : List α → List (Nat × α)
  | [] => []
  | a :: l => (n, a) :: enumFrom (n + 1) l

/-- The string key JS `Array.prototype.sort` compares when no comparator is
supplied: `String(value)`. -/
def sortKey (c : Cell) : String := cellToString c

/-- Lexicographic strict comparison of character lists by code point, the
UTF-16 comparison JS applies to the sort keys (they differ only on
supplementary-plane characters, which the engine's data never contains). -/
def charListLt : List Char → List Char → Bool
  | [], [] => false
  | [], _ :: _ => true
  | _ :: _, [] => false
  | a :: as, b :: bs =>
      if a.toNat < b.toNat then true
      else if b.toNat < a.toNat then false
      else charListLt as bs

/-- Strict key comparison of two cells. -/
def cellKeyLt (a b : Cell) : Bool := charListLt (sortKey a).data (sortKey b).data

/-- The default-sort ordering on cells: `a` may precede `b` when `b`'s key is
not strictly below `a`'s. -/
def cellKeyLe (a b : Cell) : Prop := cellKeyLt b a = false

instance : DecidableRel cellKeyLe := fun a b =>
  inferInstanceAs (Decidable (cellKeyLt b a = false))

/-- JS default `Array.prototype.sort` on cells: `undefined` elements move to
the end; the rest are sorted stably by their `String()` key.  Stability makes
the result unique, so the stable `List.insertionSort` is a faithful embedding
of whatever sort the engine runs. -/
def jsDefaultSort (l : List Cell) : List Cell :=
  (l.filter (fun c => c ≠ Cell.undef)).insertionSort cellKeyLe ++
    l.filter (fun c => c = Cell.undef)

/-- The projection of a row across the headers — the value sequence the
fingerprint serialises. -/
def projVals (hs : List String) (r : Row) : List Cell := hs.map (cellAt r)

/-- The duplicate-detection fingerprint of a row:
`JSON.stringify(headers.map(h => row[h]).sort())`. -/
def rowFingerprint (hs : List String) (r : Row) : String :=
  "[" ++ String.intercalate "," ((jsDefaultSort (projVals hs r)).map cellToJson) ++ "]"

/-- The five column types the engine can report. -/
inductive CType where
  | empty : CType
  | number : CType
  | string : CType
  | boolean : CType
  | date : CType
deriving DecidableEq, Repr

/-- Rendering of a column type into the report strings. -/
def ctypeName : CType → String
  | CType.empty => "empty"
  | CType.number => "number"
  | CType.string => "string"
  | CType.boolean => "boolean"
  | CType.date => "date"

/-- Lower-case a string (`String.prototype.toLowerCase`, ASCII fragment). -/
def lowerStr (s : String) : String := String.mk (s.data.map Char.toLower)

/-- The boolean-like string tokens of `detectDataType`. -/
def boolLike (s : String) : Bool :=
  ["true", "false", "yes", "no", "1", "0"].contains (lowerStr s)

/-- Gregorian leap year. -/
def isLeap (y : Nat) : Bool := y % 4 = 0 && (y % 100 ≠ 0 || y % 400 = 0)

/-- Days in a month. -/
def daysInMonth (y m : Nat) : Nat :=
  if m = 2 then (if isLeap y then 29 else 28)
  else if m = 4 || m = 6 || m = 9 || m = 11 then 30
  else 31

/-- A month/day pair denotes a valid calendar date in year `y`. -/
def validMD (y m d : Nat) : Bool :=
  1 ≤ m && m ≤ 12 && 1 ≤ d && d ≤ daysInMonth y m

/-- Digits-only shape check plus value extraction for a fixed-width field. -/
def digitsToNat? (l : List Char) : Option Nat :=
  if l.all Char.isDigit then some (l.foldl (fun a c => a * 10 + digitVal c) 0) else none

/-- The `isValidDate` helper: a number is never a date; a string must match
one of the three patterns `YYYY-MM-DD`, `MM/DD/YYYY`, `DD-MM-YYYY` and then
`new Date(value)` must be valid.  The JS date parser reads the first field of
the two-digit-first patterns as the month (so the `DD-MM-YYYY`-shaped pattern
is in fact validated as month-day-year), and rejects out-of-range months and
days; that calendar check is what we model. -/
def isValidDate : Cell → Bool
  | Cell.str s =>
      match s.data with
      | [y1, y2, y3, y4, '-', m1, m2, '-', d1, d2] =>
          match digitsToNat? [y1, y2, y3, y4], digitsToNat? [m1, m2], digitsToNat? [d1, d2] with
          | some y, some m, some d => validMD y m d
          | _, _, _ => false
      | [m1, m2, '/', d1, d2, '/', y1, y2, y3, y4] =>
          match digitsToNat? [y1, y2, y3, y4], digitsToNat? [m1, m2], digitsToNat? [d1, d2] with
          | some y, some m, some d => validMD y m d
          | _, _, _ => false
      | [m1, m2, '-', d1, d2, '-', y1, y2, y3, y4] =>
          match digitsToNat? [y1, y2, y3, y4], digitsToNat? [m1, m2], digitsToNat? [d1, d2] with
          | some y, some m, some d => validMD y m d
          | _, _, _ => false
      | _ => false
  | _ => false

/-- The per-value classification chain of `detectDataType`: boolean (native
boolean or boolean-like string) → number (native number, or string passing
both the `Number` and the `parseFloat` coercion) → date → string.  The
`null`/`undefined` cases are unreachable (those values are filtered out
before the chain runs) and fall through to `string` exactly as the JS chain
would. -/
def classifyCell : Cell → CType
  | Cell.boolean _ => CType.boolean
  | Cell.num _ => CType.number
  | Cell.str s =>
      if boolLike s then CType.boolean
      else if jsNumberOf s ≠ JNum.nan ∧ jsParseFloat s ≠ JNum.nan then CType.number
      else if isValidDate (Cell.str s) then CType.date
      else CType.string
  | _ => CType.string

/-- The non-missing filter of `detectDataType` and of the per-column value
collections: `v !== null && v !== undefined && v !== ''`. -/
def isPresentVal (c : Cell) : Bool :=
  c ≠ Cell.null && c ≠ Cell.undef && c ≠ Cell.str ""

/-- The report of `detectDataType` for one column. -/
structure TypeInfo where
  type : CType
  confidence : ℚ
  nullable : Bool
  mixedTypes : Bool
deriving DecidableEq, Repr

/-- One entry of the type-tally list `types`: type, count, confidence. -/
abbrev TypeCand := CType × Nat × ℚ

/-- The `reduce((max, curr) => curr.count > max.count ? curr : max)` step over
the tally list (first element is the initial accumulator, strict `>` keeps the
earlier candidate on ties). -/
def reduceDominant (first : TypeCand) (rest : List TypeCand) : TypeCand :=
  rest.foldl (fun mx cur => if cur.2.1 > mx.2.1 then cur else mx) first

/-- `detectDataType`: classify each non-missing value, tally the four types in
the fixed order number, string, boolean, date, and report the dominant one.
A column with no non-missing value reports `empty` (the JS object returned in
that case has no `mixedTypes` property, i.e. it is `undefined`, which behaves
as `false` everywhere downstream — we embed it as `false`). -/
def detectDataType (values : List Cell) : TypeInfo :=
  let nonNull := values.filter isPresentVal
  if nonNull = [] then ⟨CType.empty, 1, true, false⟩
  else
    let total := nonNull.length
    let nc := nonNull.countP (fun v => classifyCell v = CType.number)
    let sc := nonNull.countP (fun v => classifyCell v = CType.string)
    let bc := nonNull.countP (fun v => classifyCell v = CType.boolean)
    let dc := nonNull.countP (fun v => classifyCell v = CType.date)
    let cands : List TypeCand :=
      [(CType.number, nc, qdivInt nc total), (CType.string, sc, qdivInt sc total),
        (CType.boolean, bc, qdivInt bc total), (CType.date, dc, qdivInt dc total)]
    let dom := reduceDominant (CType.number, nc, qdivInt nc total)
      [(CType.string, sc, qdivInt sc total), (CType.boolean, bc, qdivInt bc total),
        (CType.date, dc, qdivInt dc total)]
    { type := dom.1
      confidence := dom.2.2
      nullable := nonNull.length < values.length
      mixedTypes := (cands.filter (fun t => t.2.1 > 0)).length > 1 }

/-- The missing-cell predicate: `null`, `undefined`, the empty string, or a
whitespace-only string. -/
def isMissingCell : Cell → Bool
  | Cell.null => true
  | Cell.undef => true
  | Cell.str s => s = "" || trimStr s = ""
  | _ => false

/-- Per-column slice of the missing-value report. -/
structure ColMissing where
  count : Nat
  percentage : JNum
  positions : List Nat
deriving DecidableEq, Repr

/-- Per-row slice of the missing-value report (only rows with at least one
missing cell are listed). -/
structure RowMissing where
  rowIndex : Nat
  missingCount : Nat
  percentage : JNum
deriving DecidableEq, Repr

/-- The full report of `findMissingValues`. -/
structure MissingReport where
  byColumn : List (String × ColMissing)
  byRow : List RowMissing
  total : Nat
  percentage : JNum
  completenessScore : JNum
deriving DecidableEq, Repr

/-- Row indices at which column `h` is missing, in row order. -/
def missingPositions (ds : Dataset) (h : String) : List Nat :=
  (enumFrom 0 ds.rows).filterMap
    (fun p => if isMissingCell (cellAt p.2 h) then some p.1 else none)

/-- Per-column slice of the missing-value scan. -/
def colMissingOf (ds : Dataset) (h : String) : ColMissing :=
  let pos := missingPositions ds h
  { count := pos.length
    percentage := JNum.jmul (JNum.jdiv (JNum.num pos.length) (JNum.num ds.rows.length)) (JNum.num 100)
    positions := pos }

/-- The `missingByColumn` map, in header order. -/
def byColumnOf (ds : Dataset) : List (String × ColMissing) :=
  ds.headers.map (fun h => (h, colMissingOf ds h))

/-- The `missingByRow` list: rows with at least one missing cell. -/
def byRowOf (ds : Dataset) : List RowMissing :=
  (enumFrom 0 ds.rows).filterMap (fun p =>
    let m := ds.headers.countP (fun h => isMissingCell (cellAt p.2 h))
    if m > 0 then
      some { rowIndex := p.1, missingCount := m
             percentage := JNum.jmul (JNum.jdiv (JNum.num m) (JNum.num ds.headers.length)) (JNum.num 100) }
    else none)

/-- `totalMissing`, the sum of the per-column counts. -/
def totalMissingOf (ds : Dataset) : Nat :=
  ((byColumnOf ds).map (fun p => p.2.count)).sum

/-- `(totalMissing / totalCells) × 100` with JS division. -/
def percentMissingOf (ds : Dataset) : JNum :=
  JNum.jmul (JNum.jdiv (JNum.num (totalMissingOf ds))
    (JNum.num ((ds.headers.length * ds.rows.length : Nat) : ℚ))) (JNum.num 100)

/-- The number of columns with at least one missing cell. -/
def columnsWithMissingOf (ds : Dataset) : Nat :=
  ((byColumnOf ds).filter (fun p => p.2.count > 0)).length

/-- `(columnsWithMissing / totalColumns) × 15`. -/
def columnMissingPenaltyOf (ds : Dataset) : JNum :=
  JNum.jmul (JNum.jdiv (JNum.num (columnsWithMissingOf ds)) (JNum.num ds.headers.length)) (JNum.num 15)

/-- `completenessScore = max(0, 100 − percentMissing − columnMissingPenalty)`. -/
def completenessScoreOf (ds : Dataset) : JNum :=
  JNum.jmax0 (JNum.jsub (JNum.jsub (JNum.num 100) (percentMissingOf ds)) (columnMissingPenaltyOf ds))

/-- `findMissingValues`: per-column and per-row missing tallies, overall
percentage, and the strict completeness score.  All percentages divide by
possibly-zero lengths with JS semantics. -/
def findMissingValues (ds : Dataset) : MissingReport :=
  { byColumn := byColumnOf ds
    byRow := byRowOf ds
    total := totalMissingOf ds
    percentage := percentMissingOf ds
    completenessScore := completenessScoreOf ds }

/-- One recorded duplicate: the first-seen row index, the repeated row index,
and the repeated row itself. -/
structure DupEntry where
  originalRow : Nat
  duplicateRow : Nat
  data : Row
deriving DecidableEq, Repr

/-- The full report of `findDuplicates`. -/
structure DuplicateReport where
  count : Nat
  percentage : JNum
  duplicates : List DupEntry
  uniquenessScore : JNum
deriving DecidableEq, Repr

/-- First-match association lookup, the behaviour of `Map.get` for the seen
map (each key is inserted at most once). -/
def lookupFp : List (String × Nat) → String → Option Nat
  | [], _ => none
  | (k, v) :: t, f => if k = f then some v else lookupFp t f

/-- The row scan of `findDuplicates`: walk the indexed rows keeping the map
from fingerprint to first-seen index; a row whose fingerprint is already in
the map is emitted as a duplicate of the stored index. -/
def findDupAux (hs : List String) : List (Nat × Row) → List (String × Nat) → List DupEntry
  | [], _ => []
  | (i, r) :: rest, seen =>
      let f := rowFingerprint hs r
      match lookupFp seen f with
      | some o => ⟨o, i, r⟩ :: findDupAux hs rest seen
      | none => findDupAux hs rest ((f, i) :: seen)

/-- Distinct-value count, the size of `new Set(values)` (cells compare by
strict equality). -/
def distinctCount (l : List Cell) : Nat := l.dedup.length

/-- The per-column low-cardinality penalty term of `findDuplicates`. -/
def cardPenalty (ds : Dataset) (h : String) : ℚ :=
  let cv := (ds.rows.map (fun r => cellAt r h)).filter isPresentVal
  if cv.length > 0 then
    let uRat : ℚ := qdivInt (distinctCount cv) cv.length
    if uRat < qdivInt 4 5 then qmul (qsub (qdivInt 4 5) uRat) (qofNat 10) else 0
  else 0

/-- The duplicate-entry list of a dataset. -/
def dupListOf (ds : Dataset) : List DupEntry :=
  findDupAux ds.headers (enumFrom 0 ds.rows) []

/-- `(duplicates.length / rows.length) × 100` with JS division. -/
def dupPercentOf (ds : Dataset) : JNum :=
  JNum.jmul (JNum.jdiv (JNum.num (dupListOf ds).length) (JNum.num ds.rows.length)) (JNum.num 100)

/-- The accumulated low-cardinality penalty. -/
def uniquenessPenaltyOf (ds : Dataset) : ℚ :=
  qsum (ds.headers.map (cardPenalty ds))

/-- `uniquenessScore = max(0, (100 − duplicate%) − penalty)`. -/
def uniquenessScoreOf (ds : Dataset) : JNum :=
  JNum.jmax0 (JNum.jsub (JNum.jsub (JNum.num 100) (dupPercentOf ds))
    (JNum.num (uniquenessPenaltyOf ds)))

/-- `findDuplicates`: fingerprint-based duplicate scan, then
`uniquenessScore = max(0, 100 − duplicate% − Σ cardinality penalties)`. -/
def findDuplicates (ds : Dataset) : DuplicateReport :=
  { count := (dupListOf ds).length
    percentage := dupPercentOf ds
    duplicates := dupListOf ds
    uniquenessScore := uniquenessScoreOf ds }

/-- `analyzeDataTypes`: the column-type report per header, in header order. -/
def analyzeDataTypes (ds : Dataset) : List (String × TypeInfo) :=
  ds.headers.map (fun h => (h, detectDataType (ds.rows.map (fun r => cellAt r h))))

/-- The numeric coercion pipeline of `calculateStatistics`: drop
`null`/`undefined`/`''`, coerce numbers and strings with `parseFloat`, drop
the failures. -/
def numericOf (vs : List Cell) : List ℚ :=
  ((vs.filter isPresentVal).map toNumJS).filterMap jnumToOpt

/-- Ascending sort of the numeric values (`sort((a, b) => a - b)`). -/
def sortedNumeric (vs : List Cell) : List ℚ :=
  (numericOf vs).insertionSort (· ≤ ·)

/-- The descriptive statistics record (the `stdDev` field of the JS object,
`Math.sqrt(variance)`, is irrational in general and is settled by no claim; it
is omitted from the embedding). -/
structure NumStats where
  count : Nat
  min : ℚ
  max : ℚ
  mean : ℚ
  median : ℚ
  mode : Option ℚ
  variance : ℚ
  q1 : ℚ
  q2 : ℚ
  q3 : ℚ
  range : ℚ
deriving DecidableEq, Repr

/-- The mode fold: walk the values keeping per-value frequencies; the mode is
replaced only when a strictly larger frequency appears, so the first value to
reach each maximal frequency wins.  JS keys the frequency object by the
number's string; distinct floats have distinct strings, so keying by the value
itself is faithful. -/
def modeFold : List ℚ → List (ℚ × Nat) → Nat → Option ℚ → Option ℚ
  | [], _, _, m => m
  | v :: rest, freq, maxF, m =>
      let f := (match freq.find? (fun p => p.1 = v) with
        | some p => p.2
        | none => 0) + 1
      let freq2 := (v, f) :: freq.filter (fun p => p.1 ≠ v)
      if f > maxF then modeFold rest freq2 f (some v) else modeFold rest freq2 maxF m

/-- `calculateStatistics`: `none` when no value survives numeric coercion,
otherwise count, min/max, mean, population variance, mode, and the
non-interpolated quartiles `sorted[floor(N·p)]`. -/
def calculateStatistics (vs : List Cell) : Option NumStats :=
  let ns := numericOf vs
  if ns = [] then none
  else
    let sorted := sortedNumeric vs
    let n := ns.length
    let mean : ℚ := qdiv (qsum ns) (qofNat n)
    let variance : ℚ := qdiv (qsum (ns.map (fun v => qmul (qsub v mean) (qsub v mean)))) (qofNat n)
    let q1i := qfloorNat (qmul (qofNat n) (qdivInt 1 4))
    let q2i := qfloorNat (qmul (qofNat n) (qdivInt 1 2))
    let q3i := qfloorNat (qmul (qofNat n) (qdivInt 3 4))
    some { count := n
           min := sorted.getD 0 0
           max := sorted.getD (n - 1) 0
           mean := mean
           median := sorted.getD q2i 0
           mode := modeFold ns [] 0 none
           variance := variance
           q1 := sorted.getD q1i 0
           q2 := sorted.getD q2i 0
           q3 := sorted.getD q3i 0
           range := qsub (sorted.getD (n - 1) 0) (sorted.getD 0 0) }

/-- The tag of a detected outlier. -/
inductive OutKind where
  | low : OutKind
  | high : OutKind
deriving DecidableEq, Repr

/-- One detected outlier: the index in the full input value sequence, the
coerced numeric value, and the side of the fence it falls on. -/
structure OutEntry where
  index : Nat
  value : ℚ
  kind : OutKind
deriving DecidableEq, Repr

/-- The full report of `detectOutliers`; the bounds are absent on the
no-statistics early return. -/
structure OutlierReport where
  outliers : List OutEntry
  count : Nat
  percentage : JNum
  lowerBound : Option ℚ
  upperBound : Option ℚ
deriving DecidableEq, Repr

/-- `detectOutliers`: the 1.5·IQR fences from `calculateStatistics`, strict
comparisons, indices taken from the full input sequence. -/
def detectOutliers (vs : List Cell) : OutlierReport :=
  match calculateStatistics vs with
  | none => { outliers := [], count := 0, percentage := JNum.num 0
              lowerBound := none, upperBound := none }
  | some st =>
      let iqr := qsub st.q3 st.q1
      let lb := qsub st.q1 (qmul (qdivInt 3 2) iqr)
      let ub := qadd st.q3 (qmul (qdivInt 3 2) iqr)
      let outs := (enumFrom 0 vs).filterMap (fun p =>
        match toNumJS p.2 with
        | JNum.num q =>
            if q < lb ∨ q > ub then
              some { index := p.1, value := q
                     kind := if q < lb then OutKind.low else OutKind.high }
            else none
        | _ => none)
      { outliers := outs
        count := outs.length
        percentage := JNum.jmul (JNum.jdiv (JNum.num outs.length) (JNum.num vs.length)) (JNum.num 100)
        lowerBound := some lb
        upperBound := some ub }

/-- JS truthiness of a cell (`filter(v => v)`): `null`, `undefined`, `0`,
`''` and `false` are falsy. -/
def truthy : Cell → Bool
  | Cell.null => false
  | Cell.undef => false
  | Cell.num q => q ≠ 0
  | Cell.str s => s ≠ ""
  | Cell.boolean b => b

/-- The merged per-column record of `analyzeDataQuality`'s `columnStats`.
The `statistics` and `outliers` properties exist only on number-typed
columns (outer `Option`); `statistics` may itself be the `null` result of
`calculateStatistics` (inner `Option`). -/
structure ColStat where
  type : TypeInfo
  missing : ColMissing
  unique : Nat
  uniquePercentage : JNum
  statistics : Option (Option NumStats)
  outliers : Option OutlierReport
deriving DecidableEq, Repr

/-- The raw value sequence of a column, in row order. -/
def columnValuesOf (ds : Dataset) (h : String) : List Cell :=
  ds.rows.map (fun r => cellAt r h)

/-- The `columnStats` map, in header order. -/
def columnStatsOf (ds : Dataset) : List (String × ColStat) :=
  let missingByColumn := (findMissingValues ds).byColumn
  ds.headers.map (fun h =>
    let cv := columnValuesOf ds h
    let typeInfo := detectDataType cv
    (h, { type := typeInfo
          missing := ((missingByColumn.find? (fun p => p.1 = h)).map Prod.snd).getD
            ⟨0, JNum.nan, []⟩
          unique := distinctCount (cv.filter isPresentVal)
          uniquePercentage :=
            JNum.jmul (JNum.jdiv (JNum.num (distinctCount cv)) (JNum.num cv.length)) (JNum.num 100)
          statistics := if typeInfo.type = CType.number then some (calculateStatistics cv) else none
          outliers := if typeInfo.type = CType.number then some (detectOutliers cv) else none }))

/-- The string-format class of a value in the validity check
(`numeric`, `lowercase`, `uppercase`, `lowercase-phrase`, `titlecase-phrase`,
`mixed`), following the regex chain of the source. -/
def fmtClass (c : Cell) : String :=
  let l := (cellToString c).data
  let isLower := fun ch => Char.isLower ch
  let isUpper := fun ch => Char.isUpper ch
  let lowOrWs := fun ch => Char.isLower ch || isJsWs ch
  if l ≠ [] ∧ l.all Char.isDigit then "numeric"
  else if l ≠ [] ∧ l.all isLower then "lowercase"
  else if l ≠ [] ∧ l.all isUpper then "uppercase"
  else match l with
    | c0 :: rest =>
        if isLower c0 ∧ rest.all lowOrWs then "lowercase-phrase"
        else if isUpper c0 ∧ rest.all lowOrWs then "titlecase-phrase"
        else "mixed"
    | [] => "mixed"

/-- The null-token test of the validity check: the value is strictly equal to
one of `''`, `'null'`, `'NULL'`, `'N/A'`, `'n/a'`, `'-'`. -/
def isNullToken (c : Cell) : Bool :=
  c = Cell.str "" || c = Cell.str "null" || c = Cell.str "NULL" ||
    c = Cell.str "N/A" || c = Cell.str "n/a" || c = Cell.str "-"

/-- The validity-issue tally: per column, 2 points when a string column shows
more than one string format, plus 1 point when null-like tokens appear in
some but not all values. -/
def validityIssuesOf (ds : Dataset) : Nat :=
  (ds.headers.map (fun h =>
    let cv := (columnValuesOf ds h).filter isPresentVal
    if cv = [] then 0
    else
      let fmtPts :=
        if (detectDataType (columnValuesOf ds h)).type = CType.string then
          (if (cv.map fmtClass).dedup.length > 1 then 2 else 0)
        else 0
      let nullVariations := (cv.filter isNullToken).length
      fmtPts + (if 0 < nullVariations ∧ nullVariations < cv.length then 1 else 0))).sum

/-- `validityScore = max(0, 100 − validityIssues)`. -/
def validityScoreOf (ds : Dataset) : JNum :=
  JNum.jmax0 (JNum.jsub (JNum.num 100) (JNum.num (validityIssuesOf ds)))

/-- A string contains one of the symbol characters of `/[\$,()]/`. -/
def hasSymConsistency (s : String) : Bool :=
  s.data.any (fun c => c = '$' || c = ',' || c = '(' || c = ')')

/-- The `(mixedTypeColumns / totalColumns) × 100` penalty. -/
def mixedTypesPenaltyOf (ds : Dataset) : JNum :=
  let mixedCount := ((analyzeDataTypes ds).map Prod.snd).countP (fun t => t.mixedTypes)
  JNum.jmul (JNum.jdiv (JNum.num mixedCount) (JNum.num ds.headers.length)) (JNum.num 100)

/-- The consistency-score format penalty: 3 points per number column whose
truthy values are split between symbol-decorated and plain. -/
def formatInconsistencyPenaltyOf (ds : Dataset) : Nat :=
  3 * ds.headers.countP (fun h =>
    (detectDataType (columnValuesOf ds h)).type = CType.number &&
      (let cv := (columnValuesOf ds h).filter truthy
       let withSym := cv.countP (fun v => hasSymConsistency (cellToString v))
       decide (withSym > 0 ∧ cv.length - withSym > 0)))

/-- `consistencyScore = max(0, 100 − mixedTypesPenalty − formatInconsistencyPenalty)`. -/
def consistencyScoreOf (ds : Dataset) : JNum :=
  JNum.jmax0 (JNum.jsub (JNum.jsub (JNum.num 100) (mixedTypesPenaltyOf ds))
    (JNum.num (formatInconsistencyPenaltyOf ds)))

/-- The `(columnsWithMissing / totalColumns) × 20` overall penalty. -/
def missingColumnsPenaltyOf (ds : Dataset) : JNum :=
  let cwm := ((findMissingValues ds).byColumn.filter (fun p => p.2.count > 0)).length
  JNum.jmul (JNum.jdiv (JNum.num cwm) (JNum.num ds.headers.length)) (JNum.num 20)

/-- A string contains `$`, `,` or `(` — the narrower symbol test of the
`formatIssuesPenalty` accumulation (no closing parenthesis there). -/
def hasSymPenalty (s : String) : Bool :=
  s.data.any (fun c => c = '$' || c = ',' || c = '(')

/-- The 5-points-per-column overall format penalty: a number column where the
count of truthy symbol-bearing values is positive yet below the length of the
full (unfiltered) column value list. -/
def formatIssuesPenaltyOf (ds : Dataset) : Nat :=
  5 * ds.headers.countP (fun h =>
    (detectDataType (columnValuesOf ds h)).type = CType.number &&
      (let cvAll := columnValuesOf ds h
       let formattedCount := cvAll.countP (fun v => truthy v && hasSymPenalty (cellToString v))
       decide (formattedCount > 0 ∧ formattedCount < cvAll.length)))

/-- The weighted base score
`completeness·0.40 + uniqueness·0.30 + validity·0.20 + consistency·0.10`. -/
def baseScoreOf (ds : Dataset) : JNum :=
  JNum.jadd
    (JNum.jadd
      (JNum.jadd (JNum.jmul (findMissingValues ds).completenessScore (JNum.num (qdivInt 2 5)))
        (JNum.jmul (findDuplicates ds).uniquenessScore (JNum.num (qdivInt 3 10))))
      (JNum.jmul (validityScoreOf ds) (JNum.num (qdivInt 1 5))))
    (JNum.jmul (consistencyScoreOf ds) (JNum.num (qdivInt 1 10)))

/-- `overallScore = max(0, baseScore − missingColumnsPenalty − formatIssuesPenalty)`. -/
def overallScoreOf (ds : Dataset) : JNum :=
  JNum.jmax0 (JNum.jsub (JNum.jsub (baseScoreOf ds) (missingColumnsPenaltyOf ds))
    (JNum.num (formatIssuesPenaltyOf ds)))

/-- The issue categories. -/
inductive IssueType where
  | missing : IssueType
  | duplicate : IssueType
  | inconsistent : IssueType
  | format : IssueType
  | outlier : IssueType
deriving DecidableEq, Repr

/-- Issue severities. -/
inductive Severity where
  | low : Severity
  | medium : Severity
  | high : Severity
deriving DecidableEq, Repr

/-- One issue record; `column`, `count` and `confidence` are present only for
some categories. -/
structure Issue where
  itype : IssueType
  severity : Severity
  column : Option String
  description : String
  count : Option Nat
  confidence : Option ℚ
deriving DecidableEq, Repr

/-- The severity chain of a missing-value issue: initialised `low`, then the
`>50 / >25 / >10 / >0` ladder (JS `>` on the possibly-`NaN` percentage). -/
def missingSeverity (p : JNum) : Severity :=
  if JNum.jgt p (JNum.num 50) then Severity.high
  else if JNum.jgt p (JNum.num 25) then Severity.high
  else if JNum.jgt p (JNum.num 10) then Severity.medium
  else if JNum.jgt p (JNum.num 0) then Severity.low
  else Severity.low

/-- The missing-value issue block, one issue per column with any missing
cell, in header order. -/
def missingIssuesOf (ds : Dataset) : List Issue :=
  (findMissingValues ds).byColumn.filterMap (fun p =>
    if p.2.count > 0 then
      some { itype := IssueType.missing
             severity := missingSeverity p.2.percentage
             column := some p.1
             description := p.1 ++ " has " ++ natStr p.2.count ++ " missing values (" ++
               jnumToFixed 1 p.2.percentage ++ "%)"
             count := some p.2.count
             confidence := none }
    else none)

/-- The single duplicate issue, emitted when any duplicate row exists. -/
def duplicateIssuesOf (ds : Dataset) : List Issue :=
  let dup := findDuplicates ds
  if dup.count > 0 then
    [{ itype := IssueType.duplicate
       severity := Severity.high
       column := none
       description := "Found " ++ natStr dup.count ++ " duplicate rows (" ++
         jnumToFixed 1 dup.percentage ++ "%)"
       count := some dup.count
       confidence := none }]
  else []

/-- The mixed-type issue block, in header order. -/
def inconsistentIssuesOf (ds : Dataset) : List Issue :=
  (analyzeDataTypes ds).filterMap (fun p =>
    if p.2.mixedTypes then
      some { itype := IssueType.inconsistent
             severity := if p.2.confidence < qdivInt 3 4 then Severity.high else Severity.medium
             column := some p.1
             description := p.1 ++ " has mixed data types (" ++
               ratToFixed 0 (qmul p.2.confidence (qofNat 100)) ++ "% " ++ ctypeName p.2.type ++ ")"
             count := none
             confidence := some p.2.confidence }
    else none)

/-- A string contains `$`, `,`, `(` or `)` — the symbol test of the
formatting-issue block. -/
def hasSymIssue (s : String) : Bool :=
  s.data.any (fun c => c = '$' || c = ',' || c = '(' || c = ')')

/-- The number-formatting-split issue block, in header order, severity low. -/
def formatIssuesListOf (ds : Dataset) : List Issue :=
  (columnStatsOf ds).filterMap (fun p =>
    if p.2.type.type = CType.number then
      let cv := (columnValuesOf ds p.1).filter truthy
      let formatted := cv.countP (fun v => hasSymIssue (cellToString v))
      let unformatted := cv.countP (fun v => !hasSymIssue (cellToString v))
      if formatted > 0 ∧ unformatted > 0 then
        some { itype := IssueType.format
               severity := Severity.low
               column := some p.1
               description := p.1 ++ " has inconsistent number formatting (" ++
                 natStr formatted ++ " formatted, " ++ natStr unformatted ++ " unformatted)"
               count := some (formatted + unformatted)
               confidence := none }
      else none
    else none)

/-- The outlier issue block, in header order, with the `>5 / >2` severity
ladder on the outlier percentage. -/
def outlierIssuesOf (ds : Dataset) : List Issue :=
  (columnStatsOf ds).filterMap (fun p =>
    match p.2.outliers with
    | some rep =>
        if rep.count > 0 then
          some { itype := IssueType.outlier
                 severity := if JNum.jgt rep.percentage (JNum.num 5) then Severity.high
                   else if JNum.jgt rep.percentage (JNum.num 2) then Severity.medium
                   else Severity.low
                 column := some p.1
                 description := p.1 ++ " has " ++ natStr rep.count ++ " outliers (" ++
                   jnumToFixed 1 rep.percentage ++ "%)"
                 count := some rep.count
                 confidence := none }
        else none
    | none => none)

/-- The full issue list, in the fixed emission order of the source: missing,
duplicate, mixed-type, formatting-split, outlier. -/
def issuesOf (ds : Dataset) : List Issue :=
  missingIssuesOf ds ++ duplicateIssuesOf ds ++ inconsistentIssuesOf ds ++
    formatIssuesListOf ds ++ outlierIssuesOf ds

/-- The four dimension scores. -/
structure ScoreSet where
  completeness : JNum
  uniqueness : JNum
  validity : JNum
  consistency : JNum
deriving DecidableEq, Repr

/-- The summary counters. -/
structure Summary where
  totalRows : Nat
  totalColumns : Nat
  totalCells : Nat
  missingCells : Nat
  duplicateRows : Nat
  issueCount : Nat
deriving DecidableEq, Repr

/-- The aggregate result of `analyzeDataQuality`.  The `explanations` and
`recommendations` fields (delegated to the quality-utilities collaborator) are
settled by no claim and are omitted from the embedding. -/
structure QualityAnalysis where
  overallScore : JNum
  scores : ScoreSet
  missingValues : MissingReport
  duplicates : DuplicateReport
  dataTypes : List (String × TypeInfo)
  columnStats : List (String × ColStat)
  issues : List Issue
  summary : Summary
deriving Repr

/-- `analyzeDataQuality`: the complete quality analysis. -/
def analyzeDataQuality (ds : Dataset) : QualityAnalysis :=
  { overallScore := overallScoreOf ds
    scores := { completeness := (findMissingValues ds).completenessScore
                uniqueness := (findDuplicates ds).uniquenessScore
                validity := validityScoreOf ds
                consistency := consistencyScoreOf ds }
    missingValues := findMissingValues ds
    duplicates := findDuplicates ds
    dataTypes := analyzeDataTypes ds
    columnStats := columnStatsOf ds
    issues := issuesOf ds
    summary := { totalRows := ds.rows.length
                 totalColumns := ds.headers.length
                 totalCells := ds.rows.length * ds.headers.length
                 missingCells := (findMissingValues ds).total
                 duplicateRows := (findDuplicates ds).count
                 issueCount := (issuesOf ds).length } }

/-! ### Concrete datasets and claim-side definitions used by the claims -/

/-- The end-to-end example dataset of the specification:
headers `[id, age]`, rows `[{id:1,age:30}, {id:2,age:null}, {id:1,age:30}]`. -/
def dsEx : Dataset :=
  { headers := ["id", "age"]
    rows := [[("id", Cell.num 1), ("age", Cell.num 30)],
             [("id", Cell.num 2), ("age", Cell.null)],
             [("id", Cell.num 1), ("age", Cell.num 30)]] }

/-- A structurally-valid degenerate dataset: one header, zero rows. -/
def dsEmpty : Dataset := { headers := ["a"], rows := [] }

/-- The numeric column `[1,1,1,1,100]` of the specification's outlier
example. -/
def colC4 : List Cell := [1, 1, 1, 1, 100].map Cell.num

/-- The statistics record the engine computes for `colC4` (its mean is
`104/5 = 20.8`). -/
def statsC4 : NumStats :=
  { count := 5, min := 1, max := 100, mean := qdivInt 104 5, median := 1, mode := some 1
    variance := qdivInt 39204 25, q1 := 1, q2 := 1, q3 := 1, range := 99 }

/-- The sorted numeric column `[1,2,3,4]` of the quartile-index example. -/
def colC5 : List Cell := [1, 2, 3, 4].map Cell.num

/-- A column with a missing first cell, distinguishing full-sequence outlier
indices (the outlier `100` sits at index 5) from filtered-sequence indices
(where it would be 4). -/
def colC10 : List Cell := Cell.null :: [1, 1, 1, 1, 100].map Cell.num

/-- Claim-side definition (from the words of C9): the first type of the fixed
enumeration `[number, string, boolean, date]` whose tally attains the
maximum — the first maximum wins. -/
def firstMaxType (n s b d : Nat) : CType :=
  if n ≥ s ∧ n ≥ b ∧ n ≥ d then CType.number
  else if s ≥ b ∧ s ≥ d then CType.string
  else if b ≥ d then CType.boolean
  else CType.date

/-- The tally of one classified type among the non-missing values of a
column. -/
def tallyOf (vs : List Cell) (t : CType) : Nat :=
  (vs.filter isPresentVal).countP (fun v => classifyCell v = t)

/-- A three-typed column: a number, a plain string and a boolean-like string
(tallies 1/1/1/0, so the first-maximum tie-break matters). -/
def colC9 : List Cell := [Cell.num 1, Cell.str "x", Cell.str "true", Cell.null]

/-- A row assigning number 1 to column a and string "1" to column b: its two
cells share the sort key "1", so the stable sort leaves them in projection
order and the serialisation depends on which column held which value. -/
def rowC7a : Row := [("a", Cell.num 1), ("b", Cell.str "1")]

/-- The same multiset of values as `rowC7a` under swapped columns. -/
def rowC7b : Row := [("a", Cell.str "1"), ("b", Cell.num 1)]

/-- The two-row dataset built from `rowC7a` and `rowC7b`. -/
def dsC7 : Dataset := { headers := ["a", "b"], rows := [rowC7a, rowC7b] }

/-- A row with values 1 and 2 (distinct sort keys). -/
def rowC7c : Row := [("a", Cell.num 1), ("b", Cell.num 2)]

/-- The same multiset of values as `rowC7c` under swapped columns. -/
def rowC7d : Row := [("a", Cell.num 2), ("b", Cell.num 1)]

/-- Claim-side (from the words of C8): missing-issue severity — high if the
percentage exceeds 50 or 25, medium if it exceeds 10, else low. -/
def missingSeveritySpec (p : JNum) : Severity :=
  if JNum.jgt p (JNum.num 50) || JNum.jgt p (JNum.num 25) then Severity.high
  else if JNum.jgt p (JNum.num 10) then Severity.medium
  else Severity.low

/-- Claim-side: mixed-type severity — high if the confidence is below 0.75,
else medium. -/
def mixedSeveritySpec (c : ℚ) : Severity :=
  if c < 3/4 then Severity.high else Severity.medium

/-- Claim-side: outlier severity — high above 5%, medium above 2%, else
low. -/
def outlierSeveritySpec (p : JNum) : Severity :=
  if JNum.jgt p (JNum.num 5) then Severity.high
  else if JNum.jgt p (JNum.num 2) then Severity.medium
  else Severity.low

/-- Claim-side (from the words of C8): the issue sequence, as
(type, column, severity) triples, in the claimed fixed order — missing-value
issues in header order, then at most one duplicate issue when any duplicate
exists (severity high), then mixed-type issues in header order, then
numeric-formatting-split issues in header order (severity low), then outlier
issues in header order. -/
def issuesSpec (ds : Dataset) : List (IssueType × Option String × Severity) :=
  ((findMissingValues ds).byColumn.filterMap (fun p =>
    if p.2.count > 0 then some (IssueType.missing, some p.1, missingSeveritySpec p.2.percentage)
    else none)) ++
  (if (findDuplicates ds).count > 0 then
    [(IssueType.duplicate, (none : Option String), Severity.high)]
  else []) ++
  ((analyzeDataTypes ds).filterMap (fun p =>
    if p.2.mixedTypes then
      some (IssueType.inconsistent, some p.1, mixedSeveritySpec p.2.confidence)
    else none)) ++
  (ds.headers.filterMap (fun h =>
    if (detectDataType (columnValuesOf ds h)).type = CType.number ∧
        ((columnValuesOf ds h).filter truthy).countP
          (fun v => hasSymIssue (cellToString v)) > 0 ∧
        ((columnValuesOf ds h).filter truthy).countP
          (fun v => !hasSymIssue (cellToString v)) > 0 then
      some (IssueType.format, some h, Severity.low)
    else none)) ++
  (ds.headers.filterMap (fun h =>
    if (detectDataType (columnValuesOf ds h)).type = CType.number ∧
        (detectOutliers (columnValuesOf ds h)).count > 0 then
      some (IssueType.outlier, some h,
        outlierSeveritySpec (detectOutliers (columnValuesOf ds h)).percentage)
    else none))

/-- Claim-side (from the words of C1): a score "lies in [0,100]" when it is a
finite number between 0 and 100 (`NaN` and infinities lie in no interval). -/
def scoreInRange (x : JNum) : Prop := ∃ q : ℚ, x = JNum.num q ∧ 0 ≤ q ∧ q ≤ 100

/-- The fingerprint of the dataset's row at index `i` (duplicate equivalence
classes are exactly the fibres of this function over the row indices). -/
def fingerprintAt (ds : Dataset) (i : Nat) : String :=
  rowFingerprint ds.headers (ds.rows.getD i [])

/-- Invariant of the `seen` map after scanning the first `n` rows: a
fingerprint maps to `o` exactly when `o` is the first index among the scanned
rows carrying that fingerprint. -/
def SeenInv (ds : Dataset) (n : Nat) (seen : List (String × Nat)) : Prop :=
  ∀ k o, lookupFp seen k = some o ↔
    (o < n ∧ fingerprintAt ds o = k ∧ ∀ j < o, fingerprintAt ds j ≠ k)

/-- The claim of C3, stated exactly: on `dsEx` the analysis yields
`byColumn.age = {count: 1, percentage: 33.3}`, one duplicate referencing row 0
as original and row 2 as duplicate, an issue `{missing, age, low}` and an
issue `{duplicate, high}`, the missing issue preceding the duplicate issue. -/
def C3claim : Prop :=
  (∃ cm : ColMissing,
      ((analyzeDataQuality dsEx).missingValues.byColumn.find? (fun p => p.1 = "age")).map
          Prod.snd = some cm ∧
        cm.count = 1 ∧ cm.percentage = JNum.num (333/10)) ∧
  (analyzeDataQuality dsEx).duplicates.count = 1 ∧
  (∃ e ∈ (analyzeDataQuality dsEx).duplicates.duplicates,
      e.originalRow = 0 ∧ e.duplicateRow = 2) ∧
  (∃ i j : Nat, i < j ∧
      ((analyzeDataQuality dsEx).issues.map (fun k => (k.itype, k.column, k.severity))).get? i =
        some (IssueType.missing, some "age", Severity.low) ∧
      ((analyzeDataQuality dsEx).issues.map (fun k => (k.itype, k.column, k.severity))).get? j =
        some (IssueType.duplicate, none, Severity.high))

/-! ### Theorems.  First the semantic bridge: every `mkRat`-based operation
the engine computes with is the standard exact rational operation. -/

theorem qadd_eq (a b : ℚ) : qadd a b = a + b := by
  rw [qadd, Rat.mkRat_eq_div]
  push_cast
  rw [div_eq_iff (by positivity)]
  nth_rewrite 3 [← Rat.num_div_den a]
  nth_rewrite 3 [← Rat.num_div_den b]
  field_simp

theorem qneg_eq (a : ℚ) : qneg a = -a := by
  rw [qneg, Rat.mkRat_eq_div]
  push_cast
  rw [neg_div, Rat.num_div_den]

theorem qsub_eq (a b : ℚ) : qsub a b = a - b := by
  rw [qsub, qadd_eq, qneg_eq, sub_eq_add_neg]

theorem qmul_eq (a b : ℚ) : qmul a b = a * b := by
  rw [qmul, Rat.mkRat_eq_div]
  push_cast
  rw [← div_mul_div_comm, Rat.num_div_den, Rat.num_div_den]

theorem qofNat_eq (n : Nat) : qofNat n = (n : ℚ) := by
  rw [qofNat, Rat.mkRat_eq_div]
  simp

theorem qdivInt_eq (n d : Int) : qdivInt n d = (n : ℚ) / (d : ℚ) := by
  rw [qdivInt]
  split_ifs with h
  · rw [Rat.mkRat_eq_div]
    have h1 : (((-d).toNat : Nat) : ℚ) = ((-d : Int) : ℚ) := by
      exact_mod_cast Int.toNat_of_nonneg (by omega)
    rw [h1]
    push_cast
    rw [neg_div_neg_eq]
  · rw [Rat.mkRat_eq_div]
    have h1 : ((d.toNat : Nat) : ℚ) = ((d : Int) : ℚ) := by
      exact_mod_cast Int.toNat_of_nonneg (by omega)
    rw [h1]

theorem qdiv_eq (a b : ℚ) : qdiv a b = a / b := by
  rw [qdiv, qdivInt_eq]
  push_cast
  rcases eq_or_ne b 0 with rfl | hb
  · simp
  · have had : (a.den : ℚ) ≠ 0 := by exact_mod_cast a.den_nz
    have hbd : (b.den : ℚ) ≠ 0 := by exact_mod_cast b.den_nz
    have hbn : (b.num : ℚ) ≠ 0 := by exact_mod_cast Rat.num_ne_zero.mpr hb
    conv_rhs => rw [← Rat.num_div_den a, ← Rat.num_div_den b]
    field_simp

theorem qfloorInt_eq (q : ℚ) : qfloorInt q = Int.floor q := by
  rw [qfloorInt, Rat.floor_def]

theorem qfloorNat_eq (q : ℚ) : qfloorNat q = Nat.floor q := by
  rw [qfloorNat, qfloorInt_eq, Int.floor_toNat]

theorem qsum_eq (l : List ℚ) : qsum l = l.sum := by
  suffices h : ∀ a : ℚ, l.foldl qadd a = a + l.sum by
    simpa using h 0
  induction l with
  | nil => intro a; simp [List.foldl]
  | cons x t ih =>
      intro a
      simp only [List.foldl, qadd_eq, List.sum_cons, ih]
      ring

/-! Reduction rules for `JNum` arithmetic on finite values. -/

theorem jadd_num_num (a b : ℚ) : JNum.jadd (JNum.num a) (JNum.num b) = JNum.num (a + b) := by
  simp [JNum.jadd, qadd_eq]

theorem jsub_num_num (a b : ℚ) : JNum.jsub (JNum.num a) (JNum.num b) = JNum.num (a - b) := by
  simp [JNum.jsub, JNum.jadd, JNum.jneg, qadd_eq, qneg_eq, sub_eq_add_neg]

theorem jmul_num_num (a b : ℚ) : JNum.jmul (JNum.num a) (JNum.num b) = JNum.num (a * b) := by
  simp [JNum.jmul, qmul_eq]

theorem jdiv_num_num {b : ℚ} (a : ℚ) (hb : b ≠ 0) :
    JNum.jdiv (JNum.num a) (JNum.num b) = JNum.num (a / b) := by
  simp [JNum.jdiv, hb, qdiv_eq]

theorem jmax0_num (a : ℚ) : JNum.jmax0 (JNum.num a) = JNum.num (max 0 a) := by
  simp only [JNum.jmax0]
  congr 1
  rcases lt_or_le a 0 with h | h
  · rw [if_pos h, max_eq_left h.le]
  · rw [if_neg (not_lt.mpr h), max_eq_right h]

theorem jgt_num_num (a b : ℚ) : JNum.jgt (JNum.num a) (JNum.num b) = decide (b < a) := rfl

/-! The key comparison is a linear order: the facts the sorting lemmas need. -/

theorem charListLt_irrefl : ∀ l : List Char, charListLt l l = false := by
  intro l
  induction l with
  | nil => rfl
  | cons a t ih => simp [charListLt, ih]

theorem charListLt_trans :
    ∀ (a b c : List Char), charListLt a b = true → charListLt b c = true →
      charListLt a c = true := by
  intro a
  induction a with
  | nil =>
      intro b c hab hbc
      cases b with
      | nil => exact hbc
      | cons y ys =>
          cases c with
          | nil => simp [charListLt] at hbc
          | cons z zs => rfl
  | cons x xs ih =>
      intro b c hab hbc
      cases b with
      | nil => simp [charListLt] at hab
      | cons y ys =>
          cases c with
          | nil => simp [charListLt] at hbc
          | cons z zs =>
              simp only [charListLt] at hab hbc ⊢
              rcases Nat.lt_trichotomy x.toNat y.toNat with hxy | hxy | hxy
              · rcases Nat.lt_trichotomy y.toNat z.toNat with hyz | hyz | hyz
                · rw [if_pos (by omega)]
                · rw [if_pos (by omega)]
                · rw [if_neg (by omega), if_pos (by omega)] at hbc
                  exact absurd hbc (by simp)
              · rw [if_neg (by omega), if_neg (by omega)] at hab
                rcases Nat.lt_trichotomy y.toNat z.toNat with hyz | hyz | hyz
                · rw [if_pos (by omega)]
                · rw [if_neg (by omega), if_neg (by omega)] at hbc
                  rw [if_neg (by omega), if_neg (by omega)]
                  exact ih ys zs hab hbc
                · rw [if_neg (by omega), if_pos (by omega)] at hbc
                  exact absurd hbc (by simp)
              · rw [if_neg (by omega), if_pos (by omega)] at hab
                exact absurd hab (by simp)

theorem char_eq_of_toNat_eq {x y : Char} (h : x.toNat = y.toNat) : x = y := by
  apply Char.ext
  apply UInt32.ext
  exact h

theorem charListLt_trichotomy :
    ∀ (a b : List Char), charListLt a b = true ∨ a = b ∨ charListLt b a = true := by
  intro a
  induction a with
  | nil =>
      intro b
      cases b with
      | nil => exact Or.inr (Or.inl rfl)
      | cons y ys => exact Or.inl rfl
  | cons x xs ih =>
      intro b
      cases b with
      | nil => exact Or.inr (Or.inr rfl)
      | cons y ys =>
          rcases Nat.lt_trichotomy x.toNat y.toNat with h | h | h
          · exact Or.inl (by simp [charListLt, h])
          · have hxy : x = y := char_eq_of_toNat_eq h
            subst hxy
            rcases ih ys with h2 | h2 | h2
            · exact Or.inl (by simp [charListLt, h2])
            · exact Or.inr (Or.inl (by rw [h2]))
            · exact Or.inr (Or.inr (by simp [charListLt, h2]))
          · exact Or.inr (Or.inr (by simp [charListLt, h]))

theorem charListLt_asymm {a b : List Char} (h : charListLt a b = true) :
    charListLt b a = false := by
  cases h2 : charListLt b a with
  | false => rfl
  | true =>
      have h3 := charListLt_trans a b a h h2
      rw [charListLt_irrefl] at h3
      exact absurd h3 (by simp)

instance : IsTotal Cell cellKeyLe := by
  constructor
  intro a b
  rw [cellKeyLe, cellKeyLe]
  cases h : cellKeyLt b a with
  | false => exact Or.inl rfl
  | true => exact Or.inr (charListLt_asymm h)

instance : IsTrans Cell cellKeyLe := by
  constructor
  intro a b c hab hbc
  rw [cellKeyLe] at hab hbc ⊢
  rw [cellKeyLt] at hab hbc ⊢
  cases hca : charListLt (sortKey c).data (sortKey a).data with
  | false => rfl
  | true =>
      exfalso
      rcases charListLt_trichotomy (sortKey c).data (sortKey b).data with h | h | h
      · rw [hbc] at h
        exact absurd h (by simp)
      · rw [h] at hca
        rw [hab] at hca
        exact absurd hca (by simp)
      · have h2 := charListLt_trans (sortKey b).data (sortKey c).data (sortKey a).data h hca
        rw [hab] at h2
        exact absurd h2 (by simp)

/-! Facts about `enumFrom`. -/

theorem mem_enumFrom {α : Type} {d : α} {p : Nat × α} :
    ∀ {n : Nat} {l : List α}, p ∈ enumFrom n l →
      n ≤ p.1 ∧ p.1 - n < l.length ∧ l.getD (p.1 - n) d = p.2 := by
  intro n l
  induction l generalizing n with
  | nil => intro h; simp [enumFrom] at h
  | cons a t ih =>
      intro h
      rcases (List.mem_cons).mp h with h | h
      · subst h
        simp
      · rcases ih h with ⟨h1, h2, h3⟩
        refine ⟨by omega, by simp; omega, ?_⟩
        have hpos : p.1 - n = (p.1 - (n + 1)) + 1 := by omega
        simpa [hpos] using h3

theorem enumFrom_length {α : Type} (n : Nat) (l : List α) :
    (enumFrom n l).length = l.length := by
  induction l generalizing n with
  | nil => rfl
  | cons a t ih => simp [enumFrom, ih]

/-! Facts about `calculateStatistics` and `detectOutliers`. -/

theorem sortedNumeric_perm (vs : List Cell) : List.Perm (sortedNumeric vs) (numericOf vs) :=
  List.perm_insertionSort _ _

theorem sortedNumeric_sorted (vs : List Cell) : (sortedNumeric vs).Sorted (· ≤ ·) :=
  List.sorted_insertionSort _ _

theorem sortedNumeric_length (vs : List Cell) :
    (sortedNumeric vs).length = (numericOf vs).length :=
  (sortedNumeric_perm vs).length_eq

/-- Unfolding of `calculateStatistics` on a column with at least one numeric
value. -/
theorem calculateStatistics_some {vs : List Cell} (h : numericOf vs ≠ []) :
    calculateStatistics vs = some
      { count := (numericOf vs).length
        min := (sortedNumeric vs).getD 0 0
        max := (sortedNumeric vs).getD ((numericOf vs).length - 1) 0
        mean := qdiv (qsum (numericOf vs)) (qofNat (numericOf vs).length)
        median := (sortedNumeric vs).getD
          (qfloorNat (qmul (qofNat (numericOf vs).length) (qdivInt 1 2))) 0
        mode := modeFold (numericOf vs) [] 0 none
        variance := qdiv (qsum ((numericOf vs).map (fun v =>
          qmul (qsub v (qdiv (qsum (numericOf vs)) (qofNat (numericOf vs).length)))
            (qsub v (qdiv (qsum (numericOf vs)) (qofNat (numericOf vs).length))))))
          (qofNat (numericOf vs).length)
        q1 := (sortedNumeric vs).getD
          (qfloorNat (qmul (qofNat (numericOf vs).length) (qdivInt 1 4))) 0
        q2 := (sortedNumeric vs).getD
          (qfloorNat (qmul (qofNat (numericOf vs).length) (qdivInt 1 2))) 0
        q3 := (sortedNumeric vs).getD
          (qfloorNat (qmul (qofNat (numericOf vs).length) (qdivInt 3 4))) 0
        range := qsub ((sortedNumeric vs).getD ((numericOf vs).length - 1) 0)
          ((sortedNumeric vs).getD 0 0) } := by
  simp only [calculateStatistics, if_neg h]

theorem quartileIdx_mono (n : Nat) :
    qfloorNat (qmul (qofNat n) (qdivInt 1 4)) ≤ qfloorNat (qmul (qofNat n) (qdivInt 1 2)) ∧
    qfloorNat (qmul (qofNat n) (qdivInt 1 2)) ≤ qfloorNat (qmul (qofNat n) (qdivInt 3 4)) := by
  simp only [qfloorNat_eq, qmul_eq, qofNat_eq, qdivInt_eq]
  constructor <;>
    · apply Nat.floor_le_floor
      apply mul_le_mul_of_nonneg_left _ (Nat.cast_nonneg n)
      norm_num

theorem quartileIdx_q3_lt {n : Nat} (hn : 0 < n) :
    qfloorNat (qmul (qofNat n) (qdivInt 3 4)) < n := by
  simp only [qfloorNat_eq, qmul_eq, qofNat_eq, qdivInt_eq]
  rw [Nat.floor_lt (by positivity)]
  have hq : (0 : ℚ) < n := by exact_mod_cast hn
  push_cast
  linarith

theorem stats_q1_le_q3 {vs : List Cell} {st : NumStats}
    (h : calculateStatistics vs = some st) : st.q1 ≤ st.q3 := by
  have hns : numericOf vs ≠ [] := by
    intro hempty
    simp only [calculateStatistics, if_pos hempty] at h
    exact Option.noConfusion h
  rw [calculateStatistics_some hns] at h
  obtain rfl := (Option.some_inj.mp h).symm
  have hn : 0 < (numericOf vs).length := List.length_pos.mpr hns
  have hmono := quartileIdx_mono (numericOf vs).length
  have hq3 : qfloorNat (qmul (qofNat (numericOf vs).length) (qdivInt 3 4)) <
      (sortedNumeric vs).length := by
    rw [sortedNumeric_length]
    exact quartileIdx_q3_lt hn
  have hq1 : qfloorNat (qmul (qofNat (numericOf vs).length) (qdivInt 1 4)) <
      (sortedNumeric vs).length := by
    omega
  simp only [List.getD_eq_getElem _ _ hq1, List.getD_eq_getElem _ _ hq3]
  rcases eq_or_lt_of_le (le_trans hmono.1 hmono.2) with heq | hlt
  · simp only [heq]
    exact le_rfl
  · exact List.pairwise_iff_getElem.mp (sortedNumeric_sorted vs) _ _ hq1 hq3 hlt

/-- The lower fence computed inside `detectOutliers`, in standard
arithmetic. -/
theorem qlb_eq (st : NumStats) :
    qsub st.q1 (qmul (qdivInt 3 2) (qsub st.q3 st.q1)) =
      st.q1 - 3/2 * (st.q3 - st.q1) := by
  rw [qsub_eq, qmul_eq, qsub_eq, qdivInt_eq]
  norm_num

/-- The upper fence computed inside `detectOutliers`, in standard
arithmetic. -/
theorem qub_eq (st : NumStats) :
    qadd st.q3 (qmul (qdivInt 3 2) (qsub st.q3 st.q1)) =
      st.q3 + 3/2 * (st.q3 - st.q1) := by
  rw [qadd_eq, qmul_eq, qsub_eq, qdivInt_eq]
  norm_num

/-- Everything `detectOutliers` records about a flagged entry: the index is a
position of the full input sequence, the value is the numeric coercion of the
cell at that position, and the value lies strictly outside a fence. -/
theorem detectOutliers_mem {vs : List Cell} {st : NumStats}
    (h : calculateStatistics vs = some st) :
    ∀ e ∈ (detectOutliers vs).outliers,
      e.index < vs.length ∧
      toNumJS (vs.getD e.index Cell.null) = JNum.num e.value ∧
      (e.value < st.q1 - 3/2 * (st.q3 - st.q1) ∨ st.q3 + 3/2 * (st.q3 - st.q1) < e.value) := by
  intro e he
  simp only [detectOutliers, h] at he
  rcases List.mem_filterMap.mp he with ⟨p, hp, hf⟩
  rcases mem_enumFrom (d := Cell.null) hp with ⟨-, hlen, hget⟩
  simp only [Nat.sub_zero] at hlen hget
  rw [qlb_eq, qub_eq] at hf
  split at hf
  · rename_i q heq
    split_ifs at hf with hcond hkind
    all_goals
      obtain rfl := (Option.some_inj.mp hf).symm
      exact ⟨hlen, by rw [hget]; exact heq, by simpa using hcond⟩
  · rename_i x heq
    exact absurd hf (by simp)

/-! ### C4 -/

/-- C4 (counterexample): the claim asserts `mean = 20.6` for the column
`[1,1,1,1,100]`; the code computes `(1+1+1+1+100)/5 = 104/5 = 20.8`
(the specification's `20.6` is an arithmetic slip). -/
theorem C4_claim_false :
    ((calculateStatistics colC4).map NumStats.mean) ≠ some (206/10) ∧
    ((calculateStatistics colC4).map NumStats.mean) = some (104/5) := by
  have h1 : (206/10 : ℚ) = qdivInt 206 10 := by
    rw [qdivInt_eq]
    norm_num
  have h2 : (104/5 : ℚ) = qdivInt 104 5 := by
    rw [qdivInt_eq]
    norm_num
  rw [h1, h2]
  exact ⟨by decide, by decide⟩

/-- C4 (amended): for the column `[1,1,1,1,100]` the statistics give
`mean = 20.8` (not 20.6) and `q1 = q3 = 1`, hence `IQR = 0` and bounds
`[1,1]`; the outlier report flags exactly `100` (at index 4) as `high` and
never flags `1`; and in general the bounds are exclusive: a value equal to
`q1 − 1.5·IQR` or to `q3 + 1.5·IQR` is never recorded as an outlier. -/
theorem C4_amended :
    calculateStatistics colC4 =
      some ⟨5, 1, 100, 104/5, 1, some 1, 39204/25, 1, 1, 1, 99⟩ ∧
    detectOutliers colC4 = ⟨[⟨4, 100, OutKind.high⟩], 1, JNum.num 20, some 1, some 1⟩ ∧
    (∀ (vs : List Cell) (st : NumStats), calculateStatistics vs = some st →
      ∀ e ∈ (detectOutliers vs).outliers,
        e.value ≠ st.q1 - 3/2 * (st.q3 - st.q1) ∧ e.value ≠ st.q3 + 3/2 * (st.q3 - st.q1)) := by
  refine ⟨?_, by decide, ?_⟩
  · have h2 : (104/5 : ℚ) = qdivInt 104 5 := by
      rw [qdivInt_eq]
      norm_num
    have h3 : (39204/25 : ℚ) = qdivInt 39204 25 := by
      rw [qdivInt_eq]
      norm_num
    rw [h2, h3]
    decide
  · intro vs st h e he
    have hq13 := stats_q1_le_q3 h
    rcases (detectOutliers_mem h e he).2.2 with hc | hc
    · refine ⟨fun hv => ?_, fun hv => ?_⟩
      · rw [hv] at hc
        exact lt_irrefl _ hc
      · rw [hv] at hc
        linarith
    · refine ⟨fun hv => ?_, fun hv => ?_⟩
      · rw [hv] at hc
        linarith
      · rw [hv] at hc
        exact lt_irrefl _ hc

/-- C4 (witness): the exclusive-bound part of the amended theorem applied to
the concrete column, at the flagged entry. -/
theorem C4_witness :
    calculateStatistics colC4 = some statsC4 ∧
    ((100 : ℚ) ≠ statsC4.q1 - 3/2 * (statsC4.q3 - statsC4.q1) ∧
      (100 : ℚ) ≠ statsC4.q3 + 3/2 * (statsC4.q3 - statsC4.q1)) :=
  ⟨by decide, C4_amended.2.2 colC4 statsC4 (by decide) ⟨4, 100, OutKind.high⟩ (by decide)⟩

/-! ### C5 -/

/-- C5: the quartiles are computed with the non-interpolated index method:
the numeric values are sorted ascending (the sorted sequence is a permutation
of the coerced numeric values, ordered by `≤`), the indices
`floor(N·0.25)`, `floor(N·0.5)`, `floor(N·0.75)` are in bounds, and
`q1`/`q2` (= `median`)/`q3` are exactly the sorted values at those indices;
in particular for the column `[1,2,3,4]`, `q1 = 2`, `q2 = 3`, `q3 = 4`. -/
theorem C5_quartile_index_method :
    (∀ vs : List Cell, numericOf vs ≠ [] →
      ∃ st, calculateStatistics vs = some st ∧
        List.Perm (sortedNumeric vs) (numericOf vs) ∧
        (sortedNumeric vs).Sorted (· ≤ ·) ∧
        Nat.floor (((numericOf vs).length : ℚ) * (3/4)) < (sortedNumeric vs).length ∧
        st.q1 = (sortedNumeric vs).getD (Nat.floor (((numericOf vs).length : ℚ) * (1/4))) 0 ∧
        st.q2 = (sortedNumeric vs).getD (Nat.floor (((numericOf vs).length : ℚ) * (1/2))) 0 ∧
        st.median = st.q2 ∧
        st.q3 = (sortedNumeric vs).getD (Nat.floor (((numericOf vs).length : ℚ) * (3/4))) 0) ∧
    (∃ st, calculateStatistics colC5 = some st ∧ st.q1 = 2 ∧ st.q2 = 3 ∧ st.q3 = 4) := by
  constructor
  · intro vs hns
    have e1 : qfloorNat (qmul (qofNat (numericOf vs).length) (qdivInt 1 4)) =
        Nat.floor (((numericOf vs).length : ℚ) * (1/4)) := by
      rw [qfloorNat_eq, qmul_eq, qofNat_eq, qdivInt_eq]
      norm_num
    have e2 : qfloorNat (qmul (qofNat (numericOf vs).length) (qdivInt 1 2)) =
        Nat.floor (((numericOf vs).length : ℚ) * (1/2)) := by
      rw [qfloorNat_eq, qmul_eq, qofNat_eq, qdivInt_eq]
      norm_num
    have e3 : qfloorNat (qmul (qofNat (numericOf vs).length) (qdivInt 3 4)) =
        Nat.floor (((numericOf vs).length : ℚ) * (3/4)) := by
      rw [qfloorNat_eq, qmul_eq, qofNat_eq, qdivInt_eq]
      norm_num
    refine ⟨_, calculateStatistics_some hns, sortedNumeric_perm vs, sortedNumeric_sorted vs,
      ?_, ?_, ?_, rfl, ?_⟩
    · rw [sortedNumeric_length, ← e3]
      exact quartileIdx_q3_lt (List.length_pos.mpr hns)
    · rw [← e1]
    · rw [← e2]
    · rw [← e3]
  · exact ⟨⟨4, 1, 4, qdivInt 5 2, 3, some 1, qdivInt 5 4, 2, 3, 4, 3⟩, by decide, rfl, rfl, rfl⟩

/-- C5 (witness): the general statement applied to the column `[1,2,3,4]`. -/
theorem C5_witness :
    numericOf colC5 ≠ [] ∧
    (∃ st, calculateStatistics colC5 = some st ∧
      List.Perm (sortedNumeric colC5) (numericOf colC5) ∧
      (sortedNumeric colC5).Sorted (· ≤ ·) ∧
      Nat.floor (((numericOf colC5).length : ℚ) * (3/4)) < (sortedNumeric colC5).length ∧
      st.q1 = (sortedNumeric colC5).getD (Nat.floor (((numericOf colC5).length : ℚ) * (1/4))) 0 ∧
      st.q2 = (sortedNumeric colC5).getD (Nat.floor (((numericOf colC5).length : ℚ) * (1/2))) 0 ∧
      st.median = st.q2 ∧
      st.q3 = (sortedNumeric colC5).getD (Nat.floor (((numericOf colC5).length : ℚ) * (3/4))) 0) :=
  ⟨by decide, C5_quartile_index_method.1 colC5 (by decide)⟩

/-! ### C10 -/

/-- C10: every outlier entry's `index` is the value's position in the full
input sequence — missing and non-numeric cells included — witnessed by the
fact that the cell at that very position of the raw input coerces to the
entry's value; and in the engine the column value sequence is built in row
order, so for `columnStats` outlier reports the index is a dataset row index
and the cell of that row under the column coerces to the reported value. -/
theorem C10_outlier_indices :
    (∀ (vs : List Cell) (e : OutEntry), e ∈ (detectOutliers vs).outliers →
      e.index < vs.length ∧ toNumJS (vs.getD e.index Cell.null) = JNum.num e.value) ∧
    (∀ (ds : Dataset) (p : String × ColStat), p ∈ columnStatsOf ds →
      ∀ rep : OutlierReport, p.2.outliers = some rep →
        ∀ e ∈ rep.outliers,
          e.index < ds.rows.length ∧
          toNumJS (cellAt (ds.rows.getD e.index []) p.1) = JNum.num e.value) := by
  have part1 : ∀ (vs : List Cell) (e : OutEntry), e ∈ (detectOutliers vs).outliers →
      e.index < vs.length ∧ toNumJS (vs.getD e.index Cell.null) = JNum.num e.value := by
    intro vs e he
    cases hst : calculateStatistics vs with
    | none =>
        simp only [detectOutliers, hst] at he
        exact absurd he (by simp)
    | some st =>
        have hm := detectOutliers_mem hst e he
        exact ⟨hm.1, hm.2.1⟩
  refine ⟨part1, ?_⟩
  intro ds p hp rep hrep e he
  rcases List.mem_map.mp hp with ⟨h, hh, hph⟩
  obtain rfl := hph.symm
  simp only at hrep he ⊢
  by_cases htype : (detectDataType (columnValuesOf ds h)).type = CType.number
  · rw [if_pos htype] at hrep
    obtain rfl := (Option.some_inj.mp hrep).symm
    obtain ⟨hlen, hval⟩ := part1 (columnValuesOf ds h) e he
    have hlt : e.index < ds.rows.length := by
      simpa [columnValuesOf] using hlen
    have hgd : (columnValuesOf ds h).getD e.index Cell.null =
        cellAt (ds.rows.getD e.index []) h := by
      rw [columnValuesOf, List.getD_eq_getElem _ _ (by simpa [columnValuesOf] using hlen),
        List.getD_eq_getElem _ _ hlt, List.getElem_map]
    refine ⟨hlt, ?_⟩
    rw [← hgd]
    exact hval
  · rw [if_neg htype] at hrep
    exact absurd hrep (by simp)

/-- C10 (witness): on the column `[null,1,1,1,1,100]` the flagged `100` sits
at full-sequence index 5 (not at filtered index 4), and the cell at
position 5 coerces to 100. -/
theorem C10_witness :
    (⟨5, 100, OutKind.high⟩ : OutEntry).index < colC10.length ∧
    toNumJS (colC10.getD (⟨5, 100, OutKind.high⟩ : OutEntry).index Cell.null) =
      JNum.num (⟨5, 100, OutKind.high⟩ : OutEntry).value :=
  C10_outlier_indices.1 colC10 ⟨5, 100, OutKind.high⟩ (by decide)

/-! ### C9 -/

/-- The `reduce` over the four type candidates keeps the earlier candidate on
ties (strict `>`), so it returns the first candidate attaining the maximal
count. -/
theorem reduceDominant_spec (n s b d : Nat) (cn cs cb cd : ℚ) :
    reduceDominant (CType.number, n, cn)
        [(CType.string, s, cs), (CType.boolean, b, cb), (CType.date, d, cd)] =
      if n ≥ s ∧ n ≥ b ∧ n ≥ d then (CType.number, n, cn)
      else if s ≥ b ∧ s ≥ d then (CType.string, s, cs)
      else if b ≥ d then (CType.boolean, b, cb)
      else (CType.date, d, cd) := by
  simp only [reduceDominant, List.foldl]
  split_ifs <;> simp_all <;> omega

theorem qdivInt_natCast (m k : Nat) : qdivInt m k = (m : ℚ) / (k : ℚ) := by
  rw [qdivInt_eq]
  push_cast
  rfl

/-- C9: for a column with at least one non-missing value, the reported
dominant type is the type with the highest tally among the per-value
classifications, ties broken by the fixed enumeration order
`[number, string, boolean, date]` with the first maximum winning, and the
confidence is the dominant tally divided by the number of non-missing
values. -/
theorem C9_dominant_type (vs : List Cell) (hne : vs.filter isPresentVal ≠ []) :
    (detectDataType vs).type =
      firstMaxType (tallyOf vs CType.number) (tallyOf vs CType.string)
        (tallyOf vs CType.boolean) (tallyOf vs CType.date) ∧
    (∀ t ∈ [CType.number, CType.string, CType.boolean, CType.date],
      tallyOf vs t ≤ tallyOf vs ((detectDataType vs).type)) ∧
    (detectDataType vs).confidence =
      (tallyOf vs ((detectDataType vs).type) : ℚ) / ((vs.filter isPresentVal).length : ℚ) := by
  have hred := reduceDominant_spec (tallyOf vs CType.number) (tallyOf vs CType.string)
    (tallyOf vs CType.boolean) (tallyOf vs CType.date)
    (qdivInt (tallyOf vs CType.number) (vs.filter isPresentVal).length)
    (qdivInt (tallyOf vs CType.string) (vs.filter isPresentVal).length)
    (qdivInt (tallyOf vs CType.boolean) (vs.filter isPresentVal).length)
    (qdivInt (tallyOf vs CType.date) (vs.filter isPresentVal).length)
  simp only [detectDataType, if_neg hne, tallyOf] at hred ⊢
  rw [hred, firstMaxType]
  refine ⟨?_, ?_, ?_⟩
  · split_ifs <;> rfl
  · intro t ht
    fin_cases ht <;> split_ifs <;> simp only [tallyOf] <;> omega
  · split_ifs <;> rw [qdivInt_natCast]

/-- C9 (witness): on the column `[1, "x", "true", null]` the tallies are
number 1, string 1, boolean 1, date 0; the first maximum in enumeration order
is `number`, and the confidence is `1/3`. -/
theorem C9_witness :
    colC9.filter isPresentVal ≠ [] ∧
    (detectDataType colC9).type =
      firstMaxType (tallyOf colC9 CType.number) (tallyOf colC9 CType.string)
        (tallyOf colC9 CType.boolean) (tallyOf colC9 CType.date) ∧
    (detectDataType colC9).confidence =
      (tallyOf colC9 ((detectDataType colC9).type) : ℚ) /
        ((colC9.filter isPresentVal).length : ℚ) :=
  ⟨by decide, (C9_dominant_type colC9 (by decide)).1,
    (C9_dominant_type colC9 (by decide)).2.2⟩

/-! ### C6 -/

/-- If a fingerprint is absent from a map satisfying the invariant, no scanned
row carries it (otherwise the least such row index would be in the map). -/
theorem firstOcc_min (ds : Dataset) {n : Nat} {seen : List (String × Nat)} {k : String}
    (hnone : lookupFp seen k = none) (hinv : SeenInv ds n seen) :
    ∀ j < n, fingerprintAt ds j ≠ k := by
  intro j hj hk
  classical
  have hP : ∃ m, m < n ∧ fingerprintAt ds m = k := ⟨j, hj, hk⟩
  obtain ⟨hlt, hfp⟩ := Nat.find_spec hP
  have hsome : lookupFp seen k = some (Nat.find hP) := (hinv k (Nat.find hP)).mpr
    ⟨hlt, hfp, fun i hi hki => Nat.find_min hP hi ⟨lt_trans hi hlt, hki⟩⟩
  rw [hnone] at hsome
  exact Option.noConfusion hsome

theorem seenInv_zero (ds : Dataset) : SeenInv ds 0 [] := by
  intro k o
  simp [lookupFp]

/-- Scanning a row whose fingerprint is already in the map leaves the
invariant intact. -/
theorem seenInv_found (ds : Dataset) {n : Nat} {seen : List (String × Nat)} {o : Nat}
    (hinv : SeenInv ds n seen)
    (hfound : lookupFp seen (fingerprintAt ds n) = some o) : SeenInv ds (n + 1) seen := by
  intro k o2
  rw [hinv k o2]
  constructor
  · rintro ⟨h1, h2, h3⟩
    exact ⟨by omega, h2, h3⟩
  · rintro ⟨h1, h2, h3⟩
    have h1a : o2 < n ∨ o2 = n := by omega
    rcases h1a with h1a | rfl
    · exact ⟨h1a, h2, h3⟩
    · exfalso
      obtain ⟨ho, hfo, -⟩ := (hinv _ o).mp hfound
      exact h3 o ho (hfo.trans h2)

/-- Scanning a row with a fresh fingerprint and recording it preserves the
invariant. -/
theorem seenInv_insert (ds : Dataset) {n : Nat} {seen : List (String × Nat)}
    (hinv : SeenInv ds n seen)
    (hnone : lookupFp seen (fingerprintAt ds n) = none) :
    SeenInv ds (n + 1) ((fingerprintAt ds n, n) :: seen) := by
  have hmin := firstOcc_min ds hnone hinv
  intro k o
  simp only [lookupFp]
  split_ifs with hk
  · constructor
    · intro h
      obtain rfl := Option.some_inj.mp h
      refine ⟨by omega, hk, ?_⟩
      intro j hj
      rw [← hk]
      exact hmin j hj
    · rintro ⟨h1, h2, h3⟩
      have h1a : o < n ∨ o = n := by omega
      rcases h1a with ho | rfl
      · exfalso
        have hsome : lookupFp seen k = some o := (hinv k o).mpr ⟨ho, h2, h3⟩
        rw [← hk, hnone] at hsome
        exact Option.noConfusion hsome
      · rfl
  · rw [hinv k o]
    constructor
    · rintro ⟨h1, h2, h3⟩
      exact ⟨by omega, h2, h3⟩
    · rintro ⟨h1, h2, h3⟩
      have h1a : o < n ∨ o = n := by omega
      rcases h1a with ho | rfl
      · exact ⟨ho, h2, h3⟩
      · exact absurd h2 hk

/-- The full invariant of the duplicate scan: every emitted entry pairs a
strictly earlier original with its duplicate, the two rows share a
fingerprint, and the original is the first row of its fingerprint class. -/
theorem findDupAux_spec (ds : Dataset) :
    ∀ (l : List Row) (n : Nat) (seen : List (String × Nat)),
      ds.rows.drop n = l → SeenInv ds n seen →
      ∀ e ∈ findDupAux ds.headers (enumFrom n l) seen,
        e.originalRow < e.duplicateRow ∧
        fingerprintAt ds e.originalRow = fingerprintAt ds e.duplicateRow ∧
        ∀ j < e.originalRow, fingerprintAt ds j ≠ fingerprintAt ds e.originalRow := by
  intro l
  induction l with
  | nil =>
      intro n seen _ _ e he
      simp [enumFrom, findDupAux] at he
  | cons r t ih =>
      intro n seen hdrop hinv e he
      have hn : n < ds.rows.length := by
        have hlen := congrArg List.length hdrop
        simp [List.length_drop] at hlen
        omega
      have hcons := List.drop_eq_getElem_cons hn
      rw [hdrop] at hcons
      injection hcons with hr ht
      have hget : ds.rows.getD n [] = r := by
        rw [List.getD_eq_getElem _ _ hn]
        exact hr.symm
      have hfp : fingerprintAt ds n = rowFingerprint ds.headers r := by
        rw [fingerprintAt, hget]
      simp only [enumFrom, findDupAux] at he
      cases hlook : lookupFp seen (rowFingerprint ds.headers r) with
      | some o =>
          rw [hlook] at he
          rcases List.mem_cons.mp he with rfl | he2
          · obtain ⟨ho, hfo, hmins⟩ := (hinv _ o).mp hlook
            refine ⟨ho, ?_, ?_⟩
            · rw [hfp]
              exact hfo
            · intro j hj
              rw [hfo]
              exact hmins j hj
          · exact ih (n + 1) seen ht.symm (seenInv_found ds hinv (hfp ▸ hlook)) e he2
      | none =>
          rw [hlook] at he
          have hinv2 := seenInv_insert ds hinv (hfp ▸ hlook)
          rw [hfp] at hinv2
          exact ih (n + 1) _ ht.symm hinv2 e he

/-- C6: value-identical rows (the same cell under every header) always carry
the same fingerprint — hence land in the same duplicate equivalence class,
whatever their positions — and every recorded duplicate satisfies
`originalRow < duplicateRow`, the original being the first row of its
fingerprint class. -/
theorem C6_duplicate_classes (ds : Dataset) :
    (∀ r1 r2 : Row, (∀ h ∈ ds.headers, cellAt r1 h = cellAt r2 h) →
      rowFingerprint ds.headers r1 = rowFingerprint ds.headers r2) ∧
    (∀ e ∈ (findDuplicates ds).duplicates,
      e.originalRow < e.duplicateRow ∧
      fingerprintAt ds e.originalRow = fingerprintAt ds e.duplicateRow ∧
      ∀ j < e.originalRow, fingerprintAt ds j ≠ fingerprintAt ds e.originalRow) := by
  constructor
  · intro r1 r2 hcells
    rw [rowFingerprint, rowFingerprint, projVals, projVals, List.map_congr_left hcells]
  · intro e he
    exact findDupAux_spec ds ds.rows 0 [] rfl (seenInv_zero ds) e he

/-- C6 (witness): in the end-to-end example dataset, the recorded duplicate
pairs rows 0 and 2, they share a fingerprint, and row 0 is the first of its
class. -/
theorem C6_witness :
    ((0 : Nat) < 2 ∧
      fingerprintAt dsEx 0 = fingerprintAt dsEx 2 ∧
      ∀ j < (0 : Nat), fingerprintAt dsEx j ≠ fingerprintAt dsEx 0) :=
  (C6_duplicate_classes dsEx).2 ⟨0, 2, [("id", Cell.num 1), ("age", Cell.num 30)]⟩ (by decide)

/-! ### C7 -/

/-- Two sorted lists that are permutations of each other are equal, provided
the ordering is antisymmetric on the elements involved. -/
theorem sorted_perm_eq {α : Type} {r : α → α → Prop} :
    ∀ {l1 l2 : List α}, List.Perm l1 l2 → l1.Sorted r → l2.Sorted r →
      (∀ x ∈ l1, ∀ y ∈ l2, r x y → r y x → x = y) → l1 = l2 := by
  intro l1
  induction l1 with
  | nil =>
      intro l2 hp _ _ _
      exact (List.Perm.nil_eq hp)
  | cons a t1 ih =>
      intro l2 hp hs1 hs2 hanti
      cases l2 with
      | nil => simpa using hp.length_eq
      | cons b t2 =>
          by_cases hab : a = b
          · subst hab
            have hp2 := hp.cons_inv
            have ht := ih hp2 hs1.of_cons hs2.of_cons
              (fun x hx y hy => hanti x (by simp [hx]) y (by simp [hy]))
            rw [ht]
          · have ha2 : a ∈ t2 := by
              have hmem : a ∈ b :: t2 := hp.mem_iff.mp (by simp)
              rcases List.mem_cons.mp hmem with h | h
              · exact absurd h hab
              · exact h
            have hb1 : b ∈ t1 := by
              have hmem : b ∈ a :: t1 := hp.mem_iff.mpr (by simp)
              rcases List.mem_cons.mp hmem with h | h
              · exact absurd h.symm hab
              · exact h
            have hrab : r a b := (List.sorted_cons.mp hs1).1 b hb1
            have hrba : r b a := (List.sorted_cons.mp hs2).1 a ha2
            exact absurd (hanti a (by simp) b (by simp) hrab hrba) hab

/-- Two cells that are not strictly below each other in either direction have
equal sort keys. -/
theorem sortKey_eq_of_le_le {x y : Cell} (hxy : cellKeyLe x y) (hyx : cellKeyLe y x) :
    sortKey x = sortKey y := by
  rw [cellKeyLe, cellKeyLt] at hxy hyx
  rcases charListLt_trichotomy (sortKey x).data (sortKey y).data with h | h | h
  · rw [hyx] at h
    exact absurd h (by simp)
  · calc sortKey x = String.mk (sortKey x).data := rfl
      _ = String.mk (sortKey y).data := by rw [h]
      _ = sortKey y := rfl
  · rw [hxy] at h
    exact absurd h (by simp)

/-- The JS default sort sends key-collision-free permutations of a cell list
to the same result. -/
theorem jsDefaultSort_eq_of_perm {l1 l2 : List Cell}
    (hperm : List.Perm l1 l2)
    (hkeys : ∀ x ∈ l1, ∀ y ∈ l2, sortKey x = sortKey y → x = y) :
    jsDefaultSort l1 = jsDefaultSort l2 := by
  rw [jsDefaultSort, jsDefaultSort]
  have hpd : List.Perm (l1.filter (fun c => c ≠ Cell.undef))
      (l2.filter (fun c => c ≠ Cell.undef)) := hperm.filter _
  have hpu : List.Perm (l1.filter (fun c => c = Cell.undef))
      (l2.filter (fun c => c = Cell.undef)) := hperm.filter _
  have hu : l1.filter (fun c => c = Cell.undef) = l2.filter (fun c => c = Cell.undef) := by
    have h1 : l1.filter (fun c => c = Cell.undef) =
        List.replicate (l1.filter (fun c => c = Cell.undef)).length Cell.undef :=
      List.eq_replicate_iff.mpr ⟨rfl, fun b hb => by simpa using (List.mem_filter.mp hb).2⟩
    have h2 : l2.filter (fun c => c = Cell.undef) =
        List.replicate (l2.filter (fun c => c = Cell.undef)).length Cell.undef :=
      List.eq_replicate_iff.mpr ⟨rfl, fun b hb => by simpa using (List.mem_filter.mp hb).2⟩
    rw [h1, h2, hpu.length_eq]
  have hsorted : (l1.filter (fun c => c ≠ Cell.undef)).insertionSort cellKeyLe =
      (l2.filter (fun c => c ≠ Cell.undef)).insertionSort cellKeyLe := by
    apply sorted_perm_eq (r := cellKeyLe)
    · exact ((List.perm_insertionSort _ _).trans hpd).trans (List.perm_insertionSort _ _).symm
    · exact List.sorted_insertionSort _ _
    · exact List.sorted_insertionSort _ _
    · intro x hx y hy hxy hyx
      have hx1 : x ∈ l1 :=
        List.mem_of_mem_filter ((List.mem_insertionSort _).mp hx)
      have hy2 : y ∈ l2 :=
        List.mem_of_mem_filter ((List.mem_insertionSort _).mp hy)
      exact hkeys x hx1 y hy2 (sortKey_eq_of_le_le hxy hyx)
  rw [hsorted, hu]

/-- C7 (counterexample): the claim — same multiset of projected values
implies same fingerprint — is false.  The rows `{a: 1, b: "1"}` and
`{a: "1", b: 1}` have the same value multiset, but the number `1` and the
string `"1"` share the sort key `"1"`, so the stable sort preserves their
(different) projection orders and the fingerprints differ (`[1,"1"]` versus
`["1",1]`); on the two-row dataset no duplicate is detected. -/
theorem C7_claim_false :
    List.Perm (projVals dsC7.headers rowC7a) (projVals dsC7.headers rowC7b) ∧
    rowFingerprint dsC7.headers rowC7a ≠ rowFingerprint dsC7.headers rowC7b ∧
    (findDuplicates dsC7).count = 0 := by
  refine ⟨?_, by decide, by decide⟩
  decide

/-- C7 (amended): the fingerprint is insensitive to column assignment for
rows whose projected values form the same multiset, provided no two distinct
values among them share a `String()` sort key (as is the case whenever the
collision pairs are equal anyway): such rows receive the same fingerprint and
collapse into one duplicate equivalence class.  (Without the collision
proviso the property fails, see the counterexample.) -/
theorem C7_amended (hs : List String) (r1 r2 : Row)
    (hperm : List.Perm (projVals hs r1) (projVals hs r2))
    (hkeys : ∀ x ∈ projVals hs r1, ∀ y ∈ projVals hs r2,
      sortKey x = sortKey y → x = y) :
    rowFingerprint hs r1 = rowFingerprint hs r2 := by
  rw [rowFingerprint, rowFingerprint, jsDefaultSort_eq_of_perm hperm hkeys]

/-- C7 (witness): the rows `{a: 1, b: 2}` and `{a: 2, b: 1}` carry the same
value multiset with collision-free keys, and indeed share one fingerprint. -/
theorem C7_witness :
    List.Perm (projVals ["a", "b"] rowC7c) (projVals ["a", "b"] rowC7d) ∧
    (∀ x ∈ projVals ["a", "b"] rowC7c, ∀ y ∈ projVals ["a", "b"] rowC7d,
      sortKey x = sortKey y → x = y) ∧
    rowFingerprint ["a", "b"] rowC7c = rowFingerprint ["a", "b"] rowC7d :=
  ⟨by decide, by decide, C7_amended ["a", "b"] rowC7c rowC7d (by decide) (by decide)⟩

/-! ### C8 -/

/-- The source's missing-severity chain (initialised `low`, then the
`>50 / >25 / >10 / >0` ladder) agrees with the claim's
`high if >50 or >25, medium if >10, else low`. -/
theorem missingSeverity_eq (p : JNum) : missingSeverity p = missingSeveritySpec p := by
  rw [missingSeverity, missingSeveritySpec]
  cases h50 : JNum.jgt p (JNum.num 50) <;> cases h25 : JNum.jgt p (JNum.num 25) <;>
    cases h10 : JNum.jgt p (JNum.num 10) <;> cases h0 : JNum.jgt p (JNum.num 0) <;>
      simp [h50, h25, h10, h0]

theorem qdivInt_three_quarters : qdivInt 3 4 = (3/4 : ℚ) := by
  rw [qdivInt_eq]
  norm_num

/-- C8: the issue list is a pure function of the dataset (the engine is a
function), and its (type, column, severity) sequence is exactly the claimed
fixed order: missing issues in header order with the `>50/>25/>10` severity
ladder, then one duplicate issue (high) when duplicates exist, then
mixed-type issues in header order (high below confidence 0.75, else medium),
then numeric-formatting-split issues in header order (low), then outlier
issues in header order with the `>5/>2` ladder. -/
theorem C8_issue_order (ds : Dataset) :
    (analyzeDataQuality ds).issues.map (fun i => (i.itype, i.column, i.severity)) =
      issuesSpec ds := by
  show (issuesOf ds).map _ = issuesSpec ds
  rw [issuesOf, issuesSpec]
  simp only [List.map_append]
  congr 1
  · congr 1
    · congr 1
      · congr 1
        · rw [missingIssuesOf, List.map_filterMap]
          apply List.filterMap_congr
          intro p _
          by_cases hc : p.2.count > 0
          · simp [hc, missingSeverity_eq]
          · simp [hc]
        · rw [duplicateIssuesOf]
          by_cases hc : (findDuplicates ds).count > 0
          · simp [hc]
          · simp [hc]
      · rw [inconsistentIssuesOf, List.map_filterMap]
        apply List.filterMap_congr
        intro p _
        by_cases hm : p.2.mixedTypes
        · simp [hm, mixedSeveritySpec, qdivInt_three_quarters]
        · simp [hm]
    · rw [formatIssuesListOf]
      simp only [columnStatsOf, List.filterMap_map, List.map_filterMap]
      apply List.filterMap_congr
      intro h _
      simp only [Function.comp]
      by_cases ht : (detectDataType (columnValuesOf ds h)).type = CType.number
      · by_cases hf : ((columnValuesOf ds h).filter truthy).countP
            (fun v => hasSymIssue (cellToString v)) > 0 ∧
            ((columnValuesOf ds h).filter truthy).countP
              (fun v => !hasSymIssue (cellToString v)) > 0
        · simp [ht, hf]
        · have hneg : ¬ ((detectDataType (columnValuesOf ds h)).type = CType.number ∧
              ((columnValuesOf ds h).filter truthy).countP
                (fun v => hasSymIssue (cellToString v)) > 0 ∧
              ((columnValuesOf ds h).filter truthy).countP
                (fun v => !hasSymIssue (cellToString v)) > 0) :=
            fun hcontra => hf hcontra.2
          rw [if_neg hf, if_neg hneg]
          simp
      · simp [ht]
  · rw [outlierIssuesOf]
    simp only [columnStatsOf, List.filterMap_map, List.map_filterMap]
    apply List.filterMap_congr
    intro h _
    simp only [Function.comp]
    by_cases ht : (detectDataType (columnValuesOf ds h)).type = CType.number
    · by_cases hc : (detectOutliers (columnValuesOf ds h)).count > 0
      · simp [ht, hc, outlierSeveritySpec]
      · simp [ht, hc]
    · simp [ht]

/-! ### C2 -/

/-- C2: the claim says that for every structurally-valid dataset — zero rows
included — the engine completes and every percentage in its output is a
defined number, never `NaN`.  The engine is total (it completes on every
`Dataset`, which the embedding exhibits by being a total function), but on the
zero-row dataset the percentage calculations evaluate `0/0`, so the overall
missing percentage, the per-column missing percentage and the duplicate
percentage are all `NaN`: the claimed never-`NaN` guarantee fails exactly
where the specification's error-handling design demands a defined sentinel. -/
theorem C2_zero_rows_nan_percentages :
    (analyzeDataQuality dsEmpty).missingValues.percentage = JNum.nan ∧
    (analyzeDataQuality dsEmpty).duplicates.percentage = JNum.nan ∧
    ((analyzeDataQuality dsEmpty).missingValues.byColumn.map (fun p => p.2.percentage)) =
      [JNum.nan] ∧
    (analyzeDataQuality dsEmpty).scores.completeness = JNum.nan := by decide

/-! ### C3 -/

/-- C3 (counterexample): the claim as stated is false on the code.  The age
column misses 1 of 3 values, so its percentage is `100/3` (which only renders
as `33.3` after `toFixed(1)`), and — decisively — `100/3 > 25`, so the missing
issue is emitted with severity `high`, not `low`: no `{missing, age, low}`
issue exists in the output. -/
theorem C3_claim_false : ¬ C3claim := by
  intro h
  obtain ⟨⟨cm, hfind, _, hperc⟩, -, -, -⟩ := h
  have hval : ((analyzeDataQuality dsEx).missingValues.byColumn.find? (fun p => p.1 = "age")).map
      Prod.snd = some { count := 1, percentage := JNum.num (qdivInt 100 3), positions := [(1 : Nat)] } := by
    decide
  rw [hval] at hfind
  have hcm := (Option.some_inj.mp hfind).symm
  rw [hcm] at hperc
  have hq : qdivInt 100 3 = (333/10 : ℚ) := by
    simpa using congrArg (fun x => match x with | JNum.num q => q | _ => 0) hperc
  rw [qdivInt_eq] at hq
  norm_num at hq

/-- C3 (amended): on `dsEx` the analysis yields `byColumn.age` with count 1,
percentage `100/3` (rendered `33.3` by `toFixed(1)` in the issue description)
and missing position row 1; one duplicate with row 0 as original and row 2 as
duplicate; and exactly two issues, in order: `{missing, age, high}` (high
because `100/3 > 25`) followed by `{duplicate, high}` — so the missing issue
does precede the duplicate issue. -/
theorem C3_amended :
    ((analyzeDataQuality dsEx).missingValues.byColumn.find? (fun p => p.1 = "age")).map
        Prod.snd = some { count := 1, percentage := JNum.num (100/3), positions := [(1 : Nat)] } ∧
    (analyzeDataQuality dsEx).duplicates.count = 1 ∧
    ((analyzeDataQuality dsEx).duplicates.duplicates.map
        (fun e => (e.originalRow, e.duplicateRow))) = [(0, 2)] ∧
    ((analyzeDataQuality dsEx).issues.map (fun k => (k.itype, k.column, k.severity))) =
      [(IssueType.missing, some "age", Severity.high),
        (IssueType.duplicate, none, Severity.high)] ∧
    ((analyzeDataQuality dsEx).issues.map Issue.description) =
      ["age has 1 missing values (33.3%)", "Found 1 duplicate rows (33.3%)"] := by
  have h1 : (100/3 : ℚ) = qdivInt 100 3 := by
    rw [qdivInt_eq]
    norm_num
  rw [h1]
  decide

/-! ### C1 -/

theorem scoreInRange_max0 {x : ℚ} (hx : x ≤ 100) : scoreInRange (JNum.jmax0 (JNum.num x)) := by
  rw [jmax0_num]
  exact ⟨max 0 x, rfl, le_max_left 0 x, max_le (by norm_num) hx⟩

theorem headers_len_ne_zero {ds : Dataset} (hH : ds.headers ≠ []) :
    ds.headers.length ≠ 0 := mt List.length_eq_zero.mp hH

theorem rows_len_ne_zero {ds : Dataset} (hR : ds.rows ≠ []) :
    ds.rows.length ≠ 0 := mt List.length_eq_zero.mp hR

theorem percentMissing_num (ds : Dataset) (hH : ds.headers ≠ []) (hR : ds.rows ≠ []) :
    percentMissingOf ds = JNum.num ((totalMissingOf ds : ℚ) /
      ((ds.headers.length * ds.rows.length : Nat) : ℚ) * 100) := by
  have hc : ((ds.headers.length * ds.rows.length : Nat) : ℚ) ≠ 0 := by
    exact_mod_cast mul_ne_zero (headers_len_ne_zero hH) (rows_len_ne_zero hR)
  rw [percentMissingOf, jdiv_num_num _ hc, jmul_num_num]

theorem columnMissingPenalty_num (ds : Dataset) (hH : ds.headers ≠ []) :
    columnMissingPenaltyOf ds = JNum.num ((columnsWithMissingOf ds : ℚ) /
      (ds.headers.length : ℚ) * 15) := by
  have hc : ((ds.headers.length : Nat) : ℚ) ≠ 0 := by
    exact_mod_cast headers_len_ne_zero hH
  rw [columnMissingPenaltyOf, jdiv_num_num _ hc, jmul_num_num]

theorem completeness_range (ds : Dataset) (hH : ds.headers ≠ []) (hR : ds.rows ≠ []) :
    scoreInRange (findMissingValues ds).completenessScore := by
  show scoreInRange (completenessScoreOf ds)
  rw [completenessScoreOf, percentMissing_num ds hH hR, columnMissingPenalty_num ds hH,
    jsub_num_num, jsub_num_num]
  apply scoreInRange_max0
  have h1 : 0 ≤ (totalMissingOf ds : ℚ) /
      ((ds.headers.length * ds.rows.length : Nat) : ℚ) * 100 := by positivity
  have h2 : 0 ≤ (columnsWithMissingOf ds : ℚ) / (ds.headers.length : ℚ) * 15 := by positivity
  linarith

theorem cardPenalty_nonneg (ds : Dataset) (h : String) : 0 ≤ cardPenalty ds h := by
  simp only [cardPenalty]
  split_ifs with h1 h2
  · rw [qmul_eq, qsub_eq, qofNat_eq]
    have h3 : 0 ≤ qdivInt 4 5 -
        qdivInt (distinctCount ((ds.rows.map (fun r => cellAt r h)).filter isPresentVal))
          ((ds.rows.map (fun r => cellAt r h)).filter isPresentVal).length := by
      linarith
    exact mul_nonneg h3 (by norm_num)
  · exact le_refl 0
  · exact le_refl 0

theorem uniquenessPenalty_nonneg (ds : Dataset) : 0 ≤ uniquenessPenaltyOf ds := by
  rw [uniquenessPenaltyOf, qsum_eq]
  apply List.sum_nonneg
  intro x hx
  rcases List.mem_map.mp hx with ⟨h, -, rfl⟩
  exact cardPenalty_nonneg ds h

theorem dupPercent_num (ds : Dataset) (hR : ds.rows ≠ []) :
    dupPercentOf ds = JNum.num (((dupListOf ds).length : ℚ) / (ds.rows.length : ℚ) * 100) := by
  have hc : ((ds.rows.length : Nat) : ℚ) ≠ 0 := by
    exact_mod_cast rows_len_ne_zero hR
  rw [dupPercentOf, jdiv_num_num _ hc, jmul_num_num]

theorem uniqueness_range (ds : Dataset) (hR : ds.rows ≠ []) :
    scoreInRange (findDuplicates ds).uniquenessScore := by
  show scoreInRange (uniquenessScoreOf ds)
  rw [uniquenessScoreOf, dupPercent_num ds hR, jsub_num_num, jsub_num_num]
  apply scoreInRange_max0
  have h1 : 0 ≤ ((dupListOf ds).length : ℚ) / (ds.rows.length : ℚ) * 100 := by positivity
  have h2 := uniquenessPenalty_nonneg ds
  linarith

theorem validity_range (ds : Dataset) : scoreInRange (validityScoreOf ds) := by
  rw [validityScoreOf, jsub_num_num]
  apply scoreInRange_max0
  have h1 : (0 : ℚ) ≤ (validityIssuesOf ds : ℚ) := Nat.cast_nonneg _
  linarith

theorem mixedTypesPenalty_num (ds : Dataset) (hH : ds.headers ≠ []) :
    mixedTypesPenaltyOf ds = JNum.num
      (((((analyzeDataTypes ds).map Prod.snd).countP (fun t => t.mixedTypes)) : ℚ) /
        (ds.headers.length : ℚ) * 100) := by
  have hc : ((ds.headers.length : Nat) : ℚ) ≠ 0 := by
    exact_mod_cast headers_len_ne_zero hH
  rw [mixedTypesPenaltyOf, jdiv_num_num _ hc, jmul_num_num]

theorem consistency_range (ds : Dataset) (hH : ds.headers ≠ []) :
    scoreInRange (consistencyScoreOf ds) := by
  rw [consistencyScoreOf, mixedTypesPenalty_num ds hH, jsub_num_num, jsub_num_num]
  apply scoreInRange_max0
  have h1 : 0 ≤ (((((analyzeDataTypes ds).map Prod.snd).countP (fun t => t.mixedTypes)) : ℚ) /
      (ds.headers.length : ℚ) * 100) := by positivity
  have h2 : (0 : ℚ) ≤ (formatInconsistencyPenaltyOf ds : ℚ) := Nat.cast_nonneg _
  linarith

theorem missingColumnsPenalty_num (ds : Dataset) (hH : ds.headers ≠ []) :
    missingColumnsPenaltyOf ds = JNum.num
      (((((findMissingValues ds).byColumn.filter (fun p => p.2.count > 0)).length : Nat) : ℚ) /
        (ds.headers.length : ℚ) * 20) := by
  have hc : ((ds.headers.length : Nat) : ℚ) ≠ 0 := by
    exact_mod_cast headers_len_ne_zero hH
  rw [missingColumnsPenaltyOf, jdiv_num_num _ hc, jmul_num_num]

/-- C1 (amended): for every dataset with at least one header and at least one
row, the overall score and the four dimension scores are finite numbers in
[0, 100].  (On the zero-row dataset the claim as stated fails: the scores are
`NaN`, see the counterexample.) -/
theorem C1_amended (ds : Dataset) (hH : ds.headers ≠ []) (hR : ds.rows ≠ []) :
    scoreInRange (analyzeDataQuality ds).overallScore ∧
    scoreInRange (analyzeDataQuality ds).scores.completeness ∧
    scoreInRange (analyzeDataQuality ds).scores.uniqueness ∧
    scoreInRange (analyzeDataQuality ds).scores.validity ∧
    scoreInRange (analyzeDataQuality ds).scores.consistency := by
  obtain ⟨c, hc, hc0, hc100⟩ := completeness_range ds hH hR
  obtain ⟨u, hu, hu0, hu100⟩ := uniqueness_range ds hR
  obtain ⟨v, hv, hv0, hv100⟩ := validity_range ds
  obtain ⟨k, hk, hk0, hk100⟩ := consistency_range ds hH
  have hw1 : qdivInt 2 5 = (2/5 : ℚ) := by
    rw [qdivInt_eq]
    norm_num
  have hw2 : qdivInt 3 10 = (3/10 : ℚ) := by
    rw [qdivInt_eq]
    norm_num
  have hw3 : qdivInt 1 5 = (1/5 : ℚ) := by
    rw [qdivInt_eq]
    norm_num
  have hw4 : qdivInt 1 10 = (1/10 : ℚ) := by
    rw [qdivInt_eq]
    norm_num
  have hbase : baseScoreOf ds =
      JNum.num (c * (2/5) + u * (3/10) + v * (1/5) + k * (1/10)) := by
    rw [baseScoreOf]
    show JNum.jadd (JNum.jadd (JNum.jadd
        (JNum.jmul (completenessScoreOf ds) (JNum.num (qdivInt 2 5)))
        (JNum.jmul (uniquenessScoreOf ds) (JNum.num (qdivInt 3 10))))
        (JNum.jmul (validityScoreOf ds) (JNum.num (qdivInt 1 5))))
        (JNum.jmul (consistencyScoreOf ds) (JNum.num (qdivInt 1 10))) = _
    rw [show completenessScoreOf ds = (findMissingValues ds).completenessScore from rfl,
      show uniquenessScoreOf ds = (findDuplicates ds).uniquenessScore from rfl, hc, hu, hv, hk,
      hw1, hw2, hw3, hw4, jmul_num_num, jmul_num_num, jmul_num_num, jmul_num_num,
      jadd_num_num, jadd_num_num, jadd_num_num]
  have hover : scoreInRange (overallScoreOf ds) := by
    rw [overallScoreOf, hbase, missingColumnsPenalty_num ds hH, jsub_num_num, jsub_num_num]
    apply scoreInRange_max0
    have hm : 0 ≤ (((((findMissingValues ds).byColumn.filter
        (fun p => p.2.count > 0)).length : Nat) : ℚ) / (ds.headers.length : ℚ) * 20) := by
      positivity
    have hf : (0 : ℚ) ≤ (formatIssuesPenaltyOf ds : ℚ) := Nat.cast_nonneg _
    linarith
  exact ⟨hover, ⟨c, hc, hc0, hc100⟩, ⟨u, hu, hu0, hu100⟩, ⟨v, hv, hv0, hv100⟩,
    ⟨k, hk, hk0, hk100⟩⟩

/-- C1 (counterexample): on the zero-row dataset the completeness score is
`NaN`, which lies in no interval — the claim fails for degenerate datasets
with zero rows (uniqueness and the overall score are equally `NaN` there, see
the C2 theorem). -/
theorem C1_claim_false :
    ¬ scoreInRange (analyzeDataQuality dsEmpty).scores.completeness := by
  rintro ⟨q, hq, -, -⟩
  have hnan : (analyzeDataQuality dsEmpty).scores.completeness = JNum.nan := by decide
  rw [hnan] at hq
  exact JNum.noConfusion hq

/-- C1 (witness): the amended theorem applied to the end-to-end example
dataset. -/
theorem C1_witness :
    (dsEx.headers ≠ [] ∧ dsEx.rows ≠ []) ∧
    (scoreInRange (analyzeDataQuality dsEx).overallScore ∧
      scoreInRange (analyzeDataQuality dsEx).scores.completeness ∧
      scoreInRange (analyzeDataQuality dsEx).scores.uniqueness ∧
      scoreInRange (analyzeDataQuality dsEx).scores.validity ∧
      scoreInRange (analyzeDataQuality dsEx).scores.consistency) :=
  ⟨⟨by decide, by decide⟩, C1_amended dsEx (by decide) (by decide)⟩

end DQ
